import Mathlib

/-!
Shallow embedding of `src/docformer/modeling.py` (DocFormer-style multimodal
transformer) and verification of the frozen claims about it.

Conventions:
* Machine floating point is modelled by exact real numbers `ℝ` (the claims are
  structural / algebraic, not about rounding); purely integral computations
  (index tables, shapes) use `ℕ`/`ℤ` and are executable.
* A tensor of statically known shape is a function out of `Fin` types
  (the "typed model"); where dynamic shape behaviour matters (slicing,
  einsum shape checks, failure on shape mismatch) tensors carry their
  dimensions as data and fallible operations return `Option`
  (the "dynamic model", namespace `Dyn`).
* Dropout layers are modelled in evaluation mode (identity), as the claims
  about values all speak about evaluation-mode behaviour.
-/

namespace DocFormer

/-! ## RelativePosition (modeling.py lines 268-286)

`torch.clamp` on integers, the precomputed `final_mat` index table and the
`forward` slice-lookup.  Python slicing `t[:n]` never raises: it silently
truncates to `min n (t.size 0)` rows, which the model reproduces exactly. -/

/-- `torch.clamp(x, lo, hi)` on integers. -/
def clampInt (x lo hi : ℤ) : ℤ := max lo (min x hi)

/-- Entry `[q, k]` of `final_mat` as built in `RelativePosition.__init__`:
`clip(k - q, -max_relative_position, max_relative_position) + max_relative_position`. -/
def finalMatEntry (maxRel : ℕ) (q k : ℕ) : ℤ :=
  clampInt ((k : ℤ) - (q : ℤ)) (-(maxRel : ℤ)) (maxRel : ℤ) + (maxRel : ℤ)

/-- `final_mat` entries are nonnegative, so they can be used as `ℕ` indices. -/
theorem finalMatEntry_nonneg (maxRel q k : ℕ) : 0 ≤ finalMatEntry maxRel q k := by
  unfold finalMatEntry clampInt
  rcases le_total ((k : ℤ) - (q : ℤ)) (maxRel : ℤ) with h | h <;> simp [min_def, max_def] <;> omega

/-- `final_mat` entries stay below the embedding-table height `2*maxRel + 1`. -/
theorem finalMatEntry_le (maxRel q k : ℕ) : finalMatEntry maxRel q k ≤ 2 * (maxRel : ℤ) := by
  unfold finalMatEntry clampInt
  rcases le_total ((k : ℤ) - (q : ℤ)) (maxRel : ℤ) with h | h <;> simp [min_def, max_def] <;> omega

/-- The `final_mat` entry as a natural-number row index. -/
def finalMatIdx (maxRel q k : ℕ) : ℕ := (finalMatEntry maxRel q k).toNat

/-- The `RelativePosition` module: the learned `embeddings_table` (a
`(2*maxRel+1, numUnits)` parameter, stored as a total function on indices)
together with the construction arguments. -/
structure RelativePosition (α : Type) where
  numUnits : ℕ
  maxRelativePosition : ℕ
  maxLength : ℕ
  embeddingsTable : ℕ → ℕ → α

/-- Result of `RelativePosition.forward`: a dynamically-shaped
`(rows, cols, units)` tensor. -/
structure RPSlice (α : Type) where
  rows : ℕ
  cols : ℕ
  units : ℕ
  val : ℕ → ℕ → ℕ → α

/-- `RelativePosition.forward(length_q, length_k)`:
`self.embeddings_table[self.final_mat[:length_q, :length_k]]`.
The Python slice truncates silently at `maxLength`; the gathered entry at
`(q, k, d)` is `embeddings_table[final_mat[q, k]][d]`. -/
def RelativePosition.forward {α : Type} (rp : RelativePosition α)
    (lengthQ lengthK : ℕ) : RPSlice α :=
  ⟨min lengthQ rp.maxLength, min lengthK rp.maxLength, rp.numUnits,
   fun q k d => rp.embeddingsTable (finalMatIdx rp.maxRelativePosition q k) d⟩

/-- C4: RelativePosition precomputes the clipped-distance index table
`[q,k] = clip(k - q, -maxRel, maxRel) + maxRel`; entries with `k - q ≥ maxRel`
collapse to row `2*maxRel`, entries with `k - q ≤ -maxRel` collapse to row `0`,
all rows lie in the `(2*maxRel+1)`-row table, and for in-bound lengths
`forward(length_q, length_k)` has shape `(length_q, length_k, numUnits)` with
value `embeddings_table[final_mat[q,k]][d]`. -/
theorem claim4_relative_position_table {α : Type} (rp : RelativePosition α)
    (lengthQ lengthK : ℕ) (hq : lengthQ ≤ rp.maxLength) (hk : lengthK ≤ rp.maxLength) :
    ((rp.forward lengthQ lengthK).rows = lengthQ ∧
     (rp.forward lengthQ lengthK).cols = lengthK ∧
     (rp.forward lengthQ lengthK).units = rp.numUnits) ∧
    (∀ q k : ℕ, (finalMatIdx rp.maxRelativePosition q k : ℤ) =
        clampInt ((k : ℤ) - (q : ℤ)) (-(rp.maxRelativePosition : ℤ))
          (rp.maxRelativePosition : ℤ) + (rp.maxRelativePosition : ℤ)) ∧
    (∀ q k : ℕ, finalMatIdx rp.maxRelativePosition q k ≤ 2 * rp.maxRelativePosition) ∧
    (∀ q k : ℕ, q + rp.maxRelativePosition ≤ k →
        finalMatIdx rp.maxRelativePosition q k = 2 * rp.maxRelativePosition) ∧
    (∀ q k : ℕ, k + rp.maxRelativePosition ≤ q →
        finalMatIdx rp.maxRelativePosition q k = 0) ∧
    (∀ q k d : ℕ, q < lengthQ → k < lengthK →
        (rp.forward lengthQ lengthK).val q k d =
          rp.embeddingsTable (finalMatIdx rp.maxRelativePosition q k) d) := by
  refine ⟨⟨?_, ?_, rfl⟩, ?_, ?_, ?_, ?_, ?_⟩
  · simpa [RelativePosition.forward] using Nat.min_eq_left hq
  · simpa [RelativePosition.forward] using Nat.min_eq_left hk
  · intro q k
    have h0 := finalMatEntry_nonneg rp.maxRelativePosition q k
    simp only [finalMatIdx, finalMatEntry] at h0 ⊢
    omega
  · intro q k
    have h0 := finalMatEntry_nonneg rp.maxRelativePosition q k
    have h1 := finalMatEntry_le rp.maxRelativePosition q k
    simp only [finalMatIdx, finalMatEntry] at h0 h1 ⊢
    omega
  · intro q k h
    have : finalMatEntry rp.maxRelativePosition q k = 2 * (rp.maxRelativePosition : ℤ) := by
      unfold finalMatEntry clampInt
      have hk2 : (rp.maxRelativePosition : ℤ) ≤ (k : ℤ) - (q : ℤ) := by
        omega
      rw [min_eq_right hk2, max_eq_right (by omega)]
      ring
    simp only [finalMatIdx, this]
    omega
  · intro q k h
    have : finalMatEntry rp.maxRelativePosition q k = 0 := by
      unfold finalMatEntry clampInt
      have hk2 : (k : ℤ) - (q : ℤ) ≤ -(rp.maxRelativePosition : ℤ) := by
        omega
      rw [min_eq_left (by omega), max_eq_left hk2]
      ring
    simp [finalMatIdx, this]
  · intro q k d _ _
    rfl

/-- A concrete `RelativePosition` over `ℚ` (`numUnits = 2`, `maxRel = 1`,
`maxLength = 3`, table row `r`, unit `u` holding `r + u`). -/
def rpEx4 : RelativePosition ℚ := ⟨2, 1, 3, fun r u => (r : ℚ) + u⟩

/-- Witness for C4 at the concrete module `rpEx4`. -/
theorem claim4_relative_position_table_witness :
    (2 ≤ rpEx4.maxLength ∧ 3 ≤ rpEx4.maxLength) ∧
    ((rpEx4.forward 2 3).rows = 2 ∧
     (rpEx4.forward 2 3).cols = 3 ∧
     (rpEx4.forward 2 3).units = rpEx4.numUnits) ∧
    (∀ q k : ℕ, (finalMatIdx rpEx4.maxRelativePosition q k : ℤ) =
        clampInt ((k : ℤ) - (q : ℤ)) (-(rpEx4.maxRelativePosition : ℤ))
          (rpEx4.maxRelativePosition : ℤ) + (rpEx4.maxRelativePosition : ℤ)) ∧
    (∀ q k : ℕ, finalMatIdx rpEx4.maxRelativePosition q k ≤ 2 * rpEx4.maxRelativePosition) ∧
    (∀ q k : ℕ, q + rpEx4.maxRelativePosition ≤ k →
        finalMatIdx rpEx4.maxRelativePosition q k = 2 * rpEx4.maxRelativePosition) ∧
    (∀ q k : ℕ, k + rpEx4.maxRelativePosition ≤ q →
        finalMatIdx rpEx4.maxRelativePosition q k = 0) ∧
    (∀ q k d : ℕ, q < 2 → k < 3 →
        (rpEx4.forward 2 3).val q k d =
          rpEx4.embeddingsTable (finalMatIdx rpEx4.maxRelativePosition q k) d) := by
  refine ⟨⟨by decide, by decide⟩, ?_⟩
  exact claim4_relative_position_table rpEx4 2 3 (by decide) (by decide)

/-- A concrete `RelativePosition` with `maxLength = 2`, used to exhibit the
silent-truncation behaviour of `forward`. -/
def rpTrunc : RelativePosition ℚ := ⟨1, 1, 2, fun _ _ => 0⟩

/-- C6 counterexample: querying `forward` beyond `maxLength` does not fail: at `maxLength = 2`,
`forward 3 3` silently returns a truncated `(2, 2, 1)` slice instead of
raising, contradicting the claim that out-of-bound lengths error. -/
theorem claim6_counterexample :
    (rpTrunc.forward 3 3).rows = 2 ∧ (rpTrunc.forward 3 3).cols = 2 ∧
    ¬ (rpTrunc.forward 3 3).rows = 3 := by
  refine ⟨rfl, rfl, by decide⟩

/-- C6 amended: `RelativePosition.forward(length_q, length_k)` never raises: Python slicing
truncates, so the result always has shape
`(min length_q maxLength, min length_k maxLength, numUnits)`. -/
theorem claim6_forward_truncates {α : Type} (rp : RelativePosition α)
    (lengthQ lengthK : ℕ) :
    (rp.forward lengthQ lengthK).rows = min lengthQ rp.maxLength ∧
    (rp.forward lengthQ lengthK).cols = min lengthK rp.maxLength ∧
    (rp.forward lengthQ lengthK).units = rp.numUnits :=
  ⟨rfl, rfl, rfl⟩

/-! ## Typed tensors and MultiModalAttentionLayer (modeling.py lines 289-382)

Tensors of statically known shape are functions out of `Fin` types; the
einops rearranges 'b t (head k) -> head b t k' and back are index
arithmetic on the packed head dimension.  Dropout is evaluation-mode
(identity), so `self.dropout` and the dropout inside `self.to_out` vanish. -/

/-- A `(batch, seq, embed)` tensor. -/
abbrev T3 (b s e : ℕ) := Fin b → Fin s → Fin e → ℝ

/-- A `(head, batch, seq, dim)` tensor (the per-head layout used throughout
`MultiModalAttentionLayer.forward`). -/
abbrev T4 (hh b s d : ℕ) := Fin hh → Fin b → Fin s → Fin d → ℝ

/-- `nn.Linear` applied along the last axis:
`y[i,t,j] = ∑ k, W[j,k] * x[i,t,k] + bias[j]`. -/
def linear3 {b s ei eo : ℕ} (W : Fin eo → Fin ei → ℝ) (bias : Fin eo → ℝ)
    (x : T3 b s ei) : T3 b s eo :=
  fun i t j => (∑ k, W j k * x i t k) + bias j

/-- If an index of `Fin (H * D)` exists, the head dimension `D` is positive. -/
theorem headDimPos {H D : ℕ} (j : Fin (H * D)) : 0 < D := by
  rcases Nat.eq_zero_or_pos D with h | h
  · exact absurd j.isLt (by simp [h])
  · exact h

/-- Head index of a packed embedding coordinate (einops `(head k)` grouping is
head-major). -/
def headIdx {H D : ℕ} (j : Fin (H * D)) : Fin H :=
  ⟨j.val / D,
    Nat.div_lt_of_lt_mul (Nat.lt_of_lt_of_le j.isLt (Nat.le_of_eq (Nat.mul_comm H D)))⟩

/-- Within-head coordinate of a packed embedding coordinate. -/
def dimIdx {H D : ℕ} (j : Fin (H * D)) : Fin D :=
  ⟨j.val % D, Nat.mod_lt _ (headDimPos j)⟩

/-- Packed embedding coordinate of head `h`, within-head coordinate `k`. -/
def packIdx {H D : ℕ} (h : Fin H) (k : Fin D) : Fin (H * D) :=
  ⟨h.val * D + k.val, by
    have h2 : (h.val + 1) * D ≤ H * D := Nat.mul_le_mul_right D h.isLt
    have h3 : h.val * D + k.val < (h.val + 1) * D := by
      have hk := k.isLt
      have : h.val * D + k.val < h.val * D + D := by omega
      calc h.val * D + k.val < h.val * D + D := this
        _ = (h.val + 1) * D := by ring
    omega⟩

/-- einops `rearrange(x, 'b t (head k) -> head b t k', head=n_heads)`. -/
def splitHeads {b s : ℕ} (H D : ℕ) (x : T3 b s (H * D)) : T4 H b s D :=
  fun h i t k => x i t (packIdx h k)

/-- einops `rearrange(c, 'head b t d -> b t (head d)')`. -/
def mergeHeads {H b s D : ℕ} (c : T4 H b s D) : T3 b s (H * D) :=
  fun i t j => c (headIdx j) i t (dimIdx j)

/-- Learned parameters of `MultiModalAttentionLayer` with `n_heads = H`,
`head_dim = D` (hence `embed_dim = H * D`, mirroring the constructor's
`assert embed_dim % n_heads == 0`) and `max_relative_position = p`.
`tableText` / `tableImg` are the `embeddings_table`s of the two
`RelativePosition` submodules (both built with `num_units = head_dim`). -/
structure MMAttnParams (H D p : ℕ) where
  fcKTextW : Fin (H * D) → Fin (H * D) → ℝ
  fcQTextW : Fin (H * D) → Fin (H * D) → ℝ
  fcVTextW : Fin (H * D) → Fin (H * D) → ℝ
  fcKImgW : Fin (H * D) → Fin (H * D) → ℝ
  fcQImgW : Fin (H * D) → Fin (H * D) → ℝ
  fcVImgW : Fin (H * D) → Fin (H * D) → ℝ
  fcKSpatialW : Fin (H * D) → Fin (H * D) → ℝ
  fcQSpatialW : Fin (H * D) → Fin (H * D) → ℝ
  toOutW : Fin (H * D) → Fin (H * D) → ℝ
  fcKTextB : Fin (H * D) → ℝ
  fcQTextB : Fin (H * D) → ℝ
  fcVTextB : Fin (H * D) → ℝ
  fcKImgB : Fin (H * D) → ℝ
  fcQImgB : Fin (H * D) → ℝ
  fcVImgB : Fin (H * D) → ℝ
  fcKSpatialB : Fin (H * D) → ℝ
  fcQSpatialB : Fin (H * D) → ℝ
  toOutB : Fin (H * D) → ℝ
  tableText : ℕ → ℕ → ℝ
  tableImg : ℕ → ℕ → ℝ

/-- `self.relative_positions_text = RelativePosition(head_dim, max_relative_position,
max_seq_length)` (line 298); `m` is `max_seq_length`. -/
def MMAttnParams.relativePositionsText {H D p : ℕ} (P : MMAttnParams H D p)
    (m : ℕ) : RelativePosition ℝ :=
  ⟨D, p, m, P.tableText⟩

/-- `self.relative_positions_img = RelativePosition(head_dim, max_relative_position,
max_seq_length)` (line 299). -/
def MMAttnParams.relativePositionsImg {H D p : ℕ} (P : MMAttnParams H D p)
    (m : ℕ) : RelativePosition ℝ :=
  ⟨D, p, m, P.tableImg⟩

/-- The same parameters with the image relative-position table replaced. -/
def MMAttnParams.setTableImg {H D p : ℕ} (P : MMAttnParams H D p)
    (T : ℕ → ℕ → ℝ) : MMAttnParams H D p :=
  { P with tableImg := T }

/-- `self.scale = torch.sqrt(torch.FloatTensor([embed_dim]))` (line 321):
the square root of the full embedding dimension, not of the head dimension. -/
noncomputable def attnScale (embedDim : ℕ) : ℝ := Real.sqrt (embedDim : ℝ)

/-- `key_text_nh` (line 332). -/
def mmKeyText {H D p b s : ℕ} (P : MMAttnParams H D p) (textFeat : T3 b s (H * D)) :
    T4 H b s D :=
  splitHeads H D (linear3 P.fcKTextW P.fcKTextB textFeat)

/-- `query_text_nh` (line 333). -/
def mmQueryText {H D p b s : ℕ} (P : MMAttnParams H D p) (textFeat : T3 b s (H * D)) :
    T4 H b s D :=
  splitHeads H D (linear3 P.fcQTextW P.fcQTextB textFeat)

/-- `value_text_nh` (line 334). -/
def mmValueText {H D p b s : ℕ} (P : MMAttnParams H D p) (textFeat : T3 b s (H * D)) :
    T4 H b s D :=
  splitHeads H D (linear3 P.fcVTextW P.fcVTextB textFeat)

/-- `key_img_nh` (line 353). -/
def mmKeyImg {H D p b s : ℕ} (P : MMAttnParams H D p) (imgFeat : T3 b s (H * D)) :
    T4 H b s D :=
  splitHeads H D (linear3 P.fcKImgW P.fcKImgB imgFeat)

/-- `query_img_nh` (line 354). -/
def mmQueryImg {H D p b s : ℕ} (P : MMAttnParams H D p) (imgFeat : T3 b s (H * D)) :
    T4 H b s D :=
  splitHeads H D (linear3 P.fcQImgW P.fcQImgB imgFeat)

/-- `value_img_nh` (line 355). -/
def mmValueImg {H D p b s : ℕ} (P : MMAttnParams H D p) (imgFeat : T3 b s (H * D)) :
    T4 H b s D :=
  splitHeads H D (linear3 P.fcVImgW P.fcVImgB imgFeat)

/-- `key_spatial_*_nh`: the shared `fc_k_spatial` projection (lines 343/345 for
text input, 364/366 for image input — same weights, different argument). -/
def mmKeySpatial {H D p b s : ℕ} (P : MMAttnParams H D p) (spatialFeat : T3 b s (H * D)) :
    T4 H b s D :=
  splitHeads H D (linear3 P.fcKSpatialW P.fcKSpatialB spatialFeat)

/-- `query_spatial_*_nh`: the shared `fc_q_spatial` projection (lines 344/346,
365/367). -/
def mmQuerySpatial {H D p b s : ℕ} (P : MMAttnParams H D p) (spatialFeat : T3 b s (H * D)) :
    T4 H b s D :=
  splitHeads H D (linear3 P.fcQSpatialW P.fcQSpatialB spatialFeat)

/-- `dots_text = einsum('hblk,hbtk->hblt', query, key) / self.scale` (line 335). -/
noncomputable def mmDotsText {H D p b s : ℕ} (P : MMAttnParams H D p) (textFeat : T3 b s (H * D)) :
    T4 H b s s :=
  fun h i l t =>
    (∑ k, mmQueryText P textFeat h i l k * mmKeyText P textFeat h i t k) / attnScale (H * D)

/-- `dots_img` (line 356). -/
noncomputable def mmDotsImg {H D p b s : ℕ} (P : MMAttnParams H D p) (imgFeat : T3 b s (H * D)) :
    T4 H b s s :=
  fun h i l t =>
    (∑ k, mmQueryImg P imgFeat h i l k * mmKeyImg P imgFeat h i t k) / attnScale (H * D)

/-- `dots_text_spatial` (line 347). -/
noncomputable def mmDotsTextSpatial {H D p b s : ℕ} (P : MMAttnParams H D p)
    (textSpatialFeat : T3 b s (H * D)) : T4 H b s s :=
  fun h i l t =>
    (∑ k, mmQuerySpatial P textSpatialFeat h i l k * mmKeySpatial P textSpatialFeat h i t k) /
      attnScale (H * D)

/-- `dots_img_spatial` (line 368). -/
noncomputable def mmDotsImgSpatial {H D p b s : ℕ} (P : MMAttnParams H D p)
    (imgSpatialFeat : T3 b s (H * D)) : T4 H b s s :=
  fun h i l t =>
    (∑ k, mmQuerySpatial P imgSpatialFeat h i l k * mmKeySpatial P imgSpatialFeat h i t k) /
      attnScale (H * D)

/-- `rel_pos_embed_text = self.relative_positions_text(seq_length, seq_length)`
(line 338), read at typed indices (`seq_length = s ≤ m` in every real call;
the gathered values do not depend on `m`). -/
def relPosEmbedText {H D p : ℕ} (P : MMAttnParams H D p) (m s : ℕ) :
    Fin s → Fin s → Fin D → ℝ :=
  fun l r d => ((P.relativePositionsText m).forward s s).val l.val r.val d.val

/-- `rel_pos_embed_img = self.relative_positions_img(seq_length, seq_length)`
(line 359).  This tensor is computed by the source and then never used:
lines 360-361 read `rel_pos_embed_text` instead. -/
def relPosEmbedImg {H D p : ℕ} (P : MMAttnParams H D p) (m s : ℕ) :
    Fin s → Fin s → Fin D → ℝ :=
  fun l r d => ((P.relativePositionsImg m).forward s s).val l.val r.val d.val

/-- `rel_pos_key_text = einsum('bhrd,lrd->bhlr', key_text_nh, rel_pos_embed_text)`
(line 339). -/
def mmRelPosKeyText {H D p b s : ℕ} (P : MMAttnParams H D p) (m : ℕ)
    (textFeat : T3 b s (H * D)) : T4 H b s s :=
  fun h i l r => ∑ d, mmKeyText P textFeat h i r d * relPosEmbedText P m s l r d

/-- `rel_pos_query_text = einsum('bhld,lrd->bhlr', query_text_nh, rel_pos_embed_text)`
(line 340). -/
def mmRelPosQueryText {H D p b s : ℕ} (P : MMAttnParams H D p) (m : ℕ)
    (textFeat : T3 b s (H * D)) : T4 H b s s :=
  fun h i l r => ∑ d, mmQueryText P textFeat h i l d * relPosEmbedText P m s l r d

/-- `rel_pos_key_img = einsum('bhrd,lrd->bhlr', key_img_nh, rel_pos_embed_text)`
(line 360) — note the second operand is the *text* relative-position embedding. -/
def mmRelPosKeyImg {H D p b s : ℕ} (P : MMAttnParams H D p) (m : ℕ)
    (imgFeat : T3 b s (H * D)) : T4 H b s s :=
  fun h i l r => ∑ d, mmKeyImg P imgFeat h i r d * relPosEmbedText P m s l r d

/-- `rel_pos_query_img = einsum('bhld,lrd->bhlr', query_img_nh, rel_pos_embed_text)`
(line 361) — again the *text* table. -/
def mmRelPosQueryImg {H D p b s : ℕ} (P : MMAttnParams H D p) (m : ℕ)
    (imgFeat : T3 b s (H * D)) : T4 H b s s :=
  fun h i l r => ∑ d, mmQueryImg P imgFeat h i l d * relPosEmbedText P m s l r d

/-- `text_attn_scores = dots_text + rel_pos_key_text + rel_pos_query_text +
dots_text_spatial` (line 350). -/
noncomputable def mmScoresText {H D p b s : ℕ} (P : MMAttnParams H D p) (m : ℕ)
    (textFeat textSpatialFeat : T3 b s (H * D)) : T4 H b s s :=
  fun h i l t =>
    mmDotsText P textFeat h i l t + mmRelPosKeyText P m textFeat h i l t +
      mmRelPosQueryText P m textFeat h i l t + mmDotsTextSpatial P textSpatialFeat h i l t

/-- `img_attn_scores = dots_img + rel_pos_key_img + rel_pos_query_img +
dots_img_spatial` (line 371). -/
noncomputable def mmScoresImg {H D p b s : ℕ} (P : MMAttnParams H D p) (m : ℕ)
    (imgFeat imgSpatialFeat : T3 b s (H * D)) : T4 H b s s :=
  fun h i l t =>
    mmDotsImg P imgFeat h i l t + mmRelPosKeyImg P m imgFeat h i l t +
      mmRelPosQueryImg P m imgFeat h i l t + mmDotsImgSpatial P imgSpatialFeat h i l t

/-- `torch.softmax(v, dim=-1)`. -/
noncomputable def softmaxR {n : ℕ} (v : Fin n → ℝ) : Fin n → ℝ :=
  fun t => Real.exp (v t) / ∑ u, Real.exp (v u)

/-- `text_attn_probs = self.dropout(torch.softmax(text_attn_scores, dim=-1))`
(line 373), dropout in evaluation mode. -/
noncomputable def mmAttnProbsText {H D p b s : ℕ} (P : MMAttnParams H D p) (m : ℕ)
    (textFeat textSpatialFeat : T3 b s (H * D)) : T4 H b s s :=
  fun h i l => softmaxR (fun t => mmScoresText P m textFeat textSpatialFeat h i l t)

/-- `img_attn_probs` (line 374). -/
noncomputable def mmAttnProbsImg {H D p b s : ℕ} (P : MMAttnParams H D p) (m : ℕ)
    (imgFeat imgSpatialFeat : T3 b s (H * D)) : T4 H b s s :=
  fun h i l => softmaxR (fun t => mmScoresImg P m imgFeat imgSpatialFeat h i l t)

/-- `text_context = einsum('hblt,hbtv->hblv', text_attn_probs, value_text_nh)`
(line 376). -/
noncomputable def mmContextText {H D p b s : ℕ} (P : MMAttnParams H D p) (m : ℕ)
    (textFeat textSpatialFeat : T3 b s (H * D)) : T4 H b s D :=
  fun h i l v =>
    ∑ t, mmAttnProbsText P m textFeat textSpatialFeat h i l t * mmValueText P textFeat h i t v

/-- `img_context` (line 377). -/
noncomputable def mmContextImg {H D p b s : ℕ} (P : MMAttnParams H D p) (m : ℕ)
    (imgFeat imgSpatialFeat : T3 b s (H * D)) : T4 H b s D :=
  fun h i l v =>
    ∑ t, mmAttnProbsImg P m imgFeat imgSpatialFeat h i l t * mmValueImg P imgFeat h i t v

/-- `context = text_context + img_context` (line 379). -/
noncomputable def mmContext {H D p b s : ℕ} (P : MMAttnParams H D p) (m : ℕ)
    (textFeat imgFeat textSpatialFeat imgSpatialFeat : T3 b s (H * D)) : T4 H b s D :=
  fun h i l v =>
    mmContextText P m textFeat textSpatialFeat h i l v +
      mmContextImg P m imgFeat imgSpatialFeat h i l v

/-- `MultiModalAttentionLayer.forward` (lines 323-382): rearrange the fused
context back to `'b t (head d)'` and apply `self.to_out` (linear + dropout,
the latter identity in evaluation mode). -/
noncomputable def mmForward {H D p b s : ℕ} (P : MMAttnParams H D p) (m : ℕ)
    (textFeat imgFeat textSpatialFeat imgSpatialFeat : T3 b s (H * D)) : T3 b s (H * D) :=
  linear3 P.toOutW P.toOutB
    (mergeHeads (mmContext P m textFeat imgFeat textSpatialFeat imgSpatialFeat))

/-- C1: within each modality the attention score is the elementwise sum of
exactly four components — content dot-product, relative-key, relative-query
and spatial dot-product — and both the content and the spatial dot-product
are divided by `sqrt(embed_dim) = sqrt(H * D)` (the full embedding dimension,
not `sqrt(head_dim) = sqrt D`); the softmax probabilities of each modality are
taken over exactly these sums. -/
theorem claim1_four_component_scores {H D p b s : ℕ} (P : MMAttnParams H D p) (m : ℕ)
    (textFeat imgFeat textSpatialFeat imgSpatialFeat : T3 b s (H * D))
    (h : Fin H) (i : Fin b) (l t : Fin s) :
    (mmScoresText P m textFeat textSpatialFeat h i l t =
      mmDotsText P textFeat h i l t + mmRelPosKeyText P m textFeat h i l t +
        mmRelPosQueryText P m textFeat h i l t +
        mmDotsTextSpatial P textSpatialFeat h i l t) ∧
    (mmScoresImg P m imgFeat imgSpatialFeat h i l t =
      mmDotsImg P imgFeat h i l t + mmRelPosKeyImg P m imgFeat h i l t +
        mmRelPosQueryImg P m imgFeat h i l t +
        mmDotsImgSpatial P imgSpatialFeat h i l t) ∧
    (mmDotsText P textFeat h i l t =
      (∑ k, mmQueryText P textFeat h i l k * mmKeyText P textFeat h i t k) /
        Real.sqrt ((H * D : ℕ) : ℝ)) ∧
    (mmDotsTextSpatial P textSpatialFeat h i l t =
      (∑ k, mmQuerySpatial P textSpatialFeat h i l k *
          mmKeySpatial P textSpatialFeat h i t k) / Real.sqrt ((H * D : ℕ) : ℝ)) ∧
    (mmDotsImg P imgFeat h i l t =
      (∑ k, mmQueryImg P imgFeat h i l k * mmKeyImg P imgFeat h i t k) /
        Real.sqrt ((H * D : ℕ) : ℝ)) ∧
    (mmDotsImgSpatial P imgSpatialFeat h i l t =
      (∑ k, mmQuerySpatial P imgSpatialFeat h i l k *
          mmKeySpatial P imgSpatialFeat h i t k) / Real.sqrt ((H * D : ℕ) : ℝ)) ∧
    (mmAttnProbsText P m textFeat textSpatialFeat h i l =
      softmaxR (fun u => mmScoresText P m textFeat textSpatialFeat h i l u)) ∧
    (mmAttnProbsImg P m imgFeat imgSpatialFeat h i l =
      softmaxR (fun u => mmScoresImg P m imgFeat imgSpatialFeat h i l u)) :=
  ⟨rfl, rfl, rfl, rfl, rfl, rfl, rfl, rfl⟩

/-- C2: the image modality's relative-position score components are einsums of
the image keys/queries against the *text* `RelativePosition` table — the image
module's own table does not enter them, for any parameters and any input. -/
theorem claim2_img_rel_scores_use_text_table {H D p b s : ℕ} (P : MMAttnParams H D p)
    (m : ℕ) (imgFeat : T3 b s (H * D)) (h : Fin H) (i : Fin b) (l r : Fin s) :
    (mmRelPosKeyImg P m imgFeat h i l r =
      ∑ d, mmKeyImg P imgFeat h i r d *
        ((P.relativePositionsText m).forward s s).val l.val r.val d.val) ∧
    (mmRelPosQueryImg P m imgFeat h i l r =
      ∑ d, mmQueryImg P imgFeat h i l d *
        ((P.relativePositionsText m).forward s s).val l.val r.val d.val) ∧
    (∀ T : ℕ → ℕ → ℝ,
      mmRelPosKeyImg (P.setTableImg T) m imgFeat = mmRelPosKeyImg P m imgFeat) ∧
    (∀ T : ℕ → ℕ → ℝ,
      mmRelPosQueryImg (P.setTableImg T) m imgFeat = mmRelPosQueryImg P m imgFeat) :=
  ⟨rfl, rfl, fun _ => rfl, fun _ => rfl⟩

/-- C10: the output of `MultiModalAttentionLayer.forward` does not depend on
the contents of `relative_positions_img.embeddings_table`: two parameter sets
differing only in that table produce identical outputs on identical inputs
(the embedding fetched from the image table on line 359 is discarded). -/
theorem claim10_output_independent_of_img_table {H D p b s : ℕ} (P : MMAttnParams H D p)
    (m : ℕ) (textFeat imgFeat textSpatialFeat imgSpatialFeat : T3 b s (H * D))
    (T U : ℕ → ℕ → ℝ) :
    mmForward (P.setTableImg T) m textFeat imgFeat textSpatialFeat imgSpatialFeat =
      mmForward (P.setTableImg U) m textFeat imgFeat textSpatialFeat imgSpatialFeat :=
  rfl

/-! ## Encoder stack (modeling.py lines 224-265 and 385-421)

`PreNorm`/`PreNormAttn` layer norms, `FeedForward` (linear → GELU → dropout →
linear → dropout, dropout again evaluation-mode), and the `DocFormerEncoder`
loop.  `nn.GELU` is the exact (erf-based) GELU, i.e. `x * Φ(x)` with `Φ` the
standard normal CDF.  The `nn.LayerNorm(dim)` modules in `PreNorm`/`PreNormAttn`
use the default `eps = 1e-5`. -/

/-- Standard normal cumulative distribution function. -/
noncomputable def gaussianCdf (x : ℝ) : ℝ :=
  ((ProbabilityTheory.gaussianReal 0 1) (Set.Iic x)).toReal

/-- `nn.GELU()` (exact form): `gelu x = x * Φ(x) = x/2 * (1 + erf (x/√2))`. -/
noncomputable def gelu (x : ℝ) : ℝ := x * gaussianCdf x

/-- Mean over the last (feature) axis of one token vector. -/
noncomputable def tokenMean {e : ℕ} (v : Fin e → ℝ) : ℝ := (∑ j, v j) / e

/-- Biased variance over the last axis (what `nn.LayerNorm` uses). -/
noncomputable def tokenVar {e : ℕ} (v : Fin e → ℝ) : ℝ :=
  (∑ j, (v j - tokenMean v) ^ 2) / e

/-- `nn.LayerNorm` over the last axis with affine weights `γ, β`. -/
noncomputable def layerNorm {b s e : ℕ} (γ β : Fin e → ℝ) (eps : ℝ)
    (x : T3 b s e) : T3 b s e :=
  fun i t j =>
    γ j * ((x i t j - tokenMean (x i t)) / Real.sqrt (tokenVar (x i t) + eps)) + β j

/-- Default `eps` of `nn.LayerNorm(dim)` as used by `PreNorm`/`PreNormAttn`. -/
noncomputable def layerNormEps : ℝ := 1e-5

/-- Parameters of `FeedForward(dim, hidden_dim)` (lines 253-262). -/
structure FeedForwardParams (e f : ℕ) where
  w1 : Fin f → Fin e → ℝ
  b1 : Fin f → ℝ
  w2 : Fin e → Fin f → ℝ
  b2 : Fin e → ℝ

/-- `FeedForward.forward`: `Linear(dim, hidden) → GELU → Dropout → Linear(hidden,
dim) → Dropout`, dropout evaluation-mode. -/
noncomputable def feedForward {b s e f : ℕ} (F : FeedForwardParams e f)
    (x : T3 b s e) : T3 b s e :=
  linear3 F.w2 F.b2 (fun i t j => gelu (linear3 F.w1 F.b1 x i t j))

/-- One `DocFormerEncoder` block: a `PreNormAttn`-wrapped
`MultiModalAttentionLayer` (four input layer-norms) and a `PreNorm`-wrapped
`FeedForward` (one layer-norm), cf. lines 391-404. -/
structure EncoderBlockParams (H D p f : ℕ) where
  attn : MMAttnParams H D p
  lnTbarG : Fin (H * D) → ℝ
  lnTbarB : Fin (H * D) → ℝ
  lnVbarG : Fin (H * D) → ℝ
  lnVbarB : Fin (H * D) → ℝ
  lnTbarSG : Fin (H * D) → ℝ
  lnTbarSB : Fin (H * D) → ℝ
  lnVbarSG : Fin (H * D) → ℝ
  lnVbarSB : Fin (H * D) → ℝ
  lnFFG : Fin (H * D) → ℝ
  lnFFB : Fin (H * D) → ℝ
  ff : FeedForwardParams (H * D) f

/-- `PreNormAttn.forward` (lines 246-250): layer-norm each of the four inputs
with its own `nn.LayerNorm`, then run the attention layer. -/
noncomputable def preNormAttn {H D p f b s : ℕ} (blk : EncoderBlockParams H D p f)
    (m : ℕ) (textFeat imgFeat textSpatialFeat imgSpatialFeat : T3 b s (H * D)) :
    T3 b s (H * D) :=
  mmForward blk.attn m
    (layerNorm blk.lnTbarG blk.lnTbarB layerNormEps textFeat)
    (layerNorm blk.lnVbarG blk.lnVbarB layerNormEps imgFeat)
    (layerNorm blk.lnTbarSG blk.lnTbarSB layerNormEps textSpatialFeat)
    (layerNorm blk.lnVbarSG blk.lnVbarSB layerNormEps imgSpatialFeat)

/-- One iteration of the `DocFormerEncoder.forward` loop (lines 416-420):
`skip = text + img + text_spatial + img_spatial` (raw, pre-norm inputs),
`x = attn(...) + skip`, `x = ff(x) + x` (the `ff` is `PreNorm`-wrapped). -/
noncomputable def encoderBlockStep {H D p f b s : ℕ} (blk : EncoderBlockParams H D p f)
    (m : ℕ) (textFeat imgFeat textSpatialFeat imgSpatialFeat : T3 b s (H * D)) :
    T3 b s (H * D) :=
  let skip : T3 b s (H * D) := fun i t j =>
    textFeat i t j + imgFeat i t j + textSpatialFeat i t j + imgSpatialFeat i t j
  let x : T3 b s (H * D) := fun i t j =>
    preNormAttn blk m textFeat imgFeat textSpatialFeat imgSpatialFeat i t j + skip i t j
  fun i t j => feedForward blk.ff (layerNorm blk.lnFFG blk.lnFFB layerNormEps x) i t j + x i t j

/-- The `for attn, ff in self.layers` loop: only `text_feat` is reassigned
(`text_feat = x`, line 420); the other three arguments are passed unchanged to
every layer. -/
noncomputable def encoderLoop {H D p f b s : ℕ} (m : ℕ) :
    List (EncoderBlockParams H D p f) → T3 b s (H * D) → T3 b s (H * D) →
      T3 b s (H * D) → T3 b s (H * D) → T3 b s (H * D)
  | [], textFeat, _, _, _ => textFeat
  | blk :: rest, textFeat, imgFeat, textSpatialFeat, imgSpatialFeat =>
      encoderLoop m rest (encoderBlockStep blk m textFeat imgFeat textSpatialFeat imgSpatialFeat)
        imgFeat textSpatialFeat imgSpatialFeat

/-- `DocFormerEncoder.forward` (lines 407-421).  With an empty layer list the
Python `return x` raises `UnboundLocalError` (`x` is never bound), modelled as
`none`; otherwise the loop result is returned. -/
noncomputable def docFormerEncoderForward {H D p f b s : ℕ} (m : ℕ)
    (blocks : List (EncoderBlockParams H D p f))
    (textFeat imgFeat textSpatialFeat imgSpatialFeat : T3 b s (H * D)) :
    Option (T3 b s (H * D)) :=
  match blocks with
  | [] => none
  | blk :: rest =>
      some (encoderLoop m (blk :: rest) textFeat imgFeat textSpatialFeat imgSpatialFeat)

/-- The encoder loop is a left fold that threads only the text stream; the
image and spatial streams are constant across layers. -/
theorem encoderLoop_eq_foldl {H D p f b s : ℕ} (m : ℕ)
    (blocks : List (EncoderBlockParams H D p f))
    (textFeat imgFeat textSpatialFeat imgSpatialFeat : T3 b s (H * D)) :
    encoderLoop m blocks textFeat imgFeat textSpatialFeat imgSpatialFeat =
      List.foldl (fun acc blk => encoderBlockStep blk m acc imgFeat textSpatialFeat imgSpatialFeat)
        textFeat blocks := by
  induction blocks generalizing textFeat with
  | nil => rfl
  | cons blk rest ih =>
      simp only [encoderLoop, List.foldl]
      exact ih _

/-- C3: in every `DocFormerEncoder.forward` call, each layer adds a skip
connection equal to the elementwise sum of all four raw (pre-norm) inputs, and
across layers only the text stream is replaced by the fused output — the
image, text-spatial and image-spatial tensors handed to every layer are the
original inputs (the loop is a fold over the text stream with the other three
streams constant). -/
theorem claim3_encoder_threading {H D p f b s : ℕ} (m : ℕ)
    (blk : EncoderBlockParams H D p f) (rest : List (EncoderBlockParams H D p f))
    (textFeat imgFeat textSpatialFeat imgSpatialFeat : T3 b s (H * D)) :
    (docFormerEncoderForward m (blk :: rest) textFeat imgFeat textSpatialFeat imgSpatialFeat =
      some (List.foldl
        (fun acc b2 => encoderBlockStep b2 m acc imgFeat textSpatialFeat imgSpatialFeat)
        textFeat (blk :: rest))) ∧
    (∀ i t j, encoderBlockStep blk m textFeat imgFeat textSpatialFeat imgSpatialFeat i t j =
      feedForward blk.ff
        (layerNorm blk.lnFFG blk.lnFFB layerNormEps
          (fun i2 t2 j2 =>
            preNormAttn blk m textFeat imgFeat textSpatialFeat imgSpatialFeat i2 t2 j2 +
              (textFeat i2 t2 j2 + imgFeat i2 t2 j2 + textSpatialFeat i2 t2 j2 +
                imgSpatialFeat i2 t2 j2))) i t j +
        (preNormAttn blk m textFeat imgFeat textSpatialFeat imgSpatialFeat i t j +
          (textFeat i t j + imgFeat i t j + textSpatialFeat i t j + imgSpatialFeat i t j))) := by
  constructor
  · simp only [docFormerEncoderForward]
    exact congrArg some (encoderLoop_eq_foldl m (blk :: rest) textFeat imgFeat
      textSpatialFeat imgSpatialFeat)
  · intro i t j
    rfl

/-! ## Scale (non-)invariance of the attention probabilities (C9)

The spec asserts that with zero relative-position and spatial score terms,
multiplying all input embeddings by a constant `c` leaves the softmax output
unchanged.  On the source this is false: the content score is a bilinear dot
product divided by the *constant* `sqrt(embed_dim)`, so scaling the inputs by
`c` scales the scores by `c^2` (given zero projection biases), and softmax is
not invariant under multiplicative scaling of its argument. -/

/-- A linear layer with zero bias is homogeneous in its input. -/
theorem linear3_zero_bias_smul {b s ei eo : ℕ} (W : Fin eo → Fin ei → ℝ)
    (B : Fin eo → ℝ) (hB : ∀ j, B j = 0) (c : ℝ) (x : T3 b s ei)
    (i : Fin b) (t : Fin s) (j : Fin eo) :
    linear3 W B (fun i2 t2 k => c * x i2 t2 k) i t j = c * linear3 W B x i t j := by
  simp only [linear3, hB, add_zero, Finset.mul_sum]
  exact Finset.sum_congr rfl (fun k _ => by ring)

/-- C9 amended: for `MultiModalAttentionLayer` in evaluation mode with the
relative-position and spatial score terms zero (zero text q/k projection
biases, zero text relative-position table, zero shared spatial query
projection), multiplying all input embeddings by a constant `c` multiplies
every text attention score by `c^2` — it does not leave the scores (hence in
general not the softmax output) unchanged. -/
theorem claim9_scores_scale_quadratically {H D p b s : ℕ} (P : MMAttnParams H D p)
    (m : ℕ) (textFeat textSpatialFeat : T3 b s (H * D)) (c : ℝ)
    (hbq : ∀ j, P.fcQTextB j = 0) (hbk : ∀ j, P.fcKTextB j = 0)
    (htab : ∀ r u, P.tableText r u = 0)
    (hwqs : ∀ j k2, P.fcQSpatialW j k2 = 0) (hbqs : ∀ j, P.fcQSpatialB j = 0) :
    ∀ (h : Fin H) (i : Fin b) (l t : Fin s),
      mmScoresText P m (fun i2 t2 j => c * textFeat i2 t2 j)
          (fun i2 t2 j => c * textSpatialFeat i2 t2 j) h i l t =
        c ^ 2 * mmScoresText P m textFeat textSpatialFeat h i l t := by
  intro h i l t
  have hdots : mmDotsText P (fun i2 t2 j => c * textFeat i2 t2 j) h i l t =
      c ^ 2 * mmDotsText P textFeat h i l t := by
    simp only [mmDotsText, mmQueryText, mmKeyText, splitHeads]
    have hnum : (∑ k, linear3 P.fcQTextW P.fcQTextB (fun i2 t2 j => c * textFeat i2 t2 j)
          i l (packIdx h k) *
        linear3 P.fcKTextW P.fcKTextB (fun i2 t2 j => c * textFeat i2 t2 j)
          i t (packIdx h k)) =
        c ^ 2 * ∑ k, linear3 P.fcQTextW P.fcQTextB textFeat i l (packIdx h k) *
          linear3 P.fcKTextW P.fcKTextB textFeat i t (packIdx h k) := by
      rw [Finset.mul_sum]
      refine Finset.sum_congr rfl (fun k _ => ?_)
      rw [linear3_zero_bias_smul _ _ hbq, linear3_zero_bias_smul _ _ hbk]
      ring
    rw [hnum, mul_div_assoc]
  have hrelK : ∀ tf2 : T3 b s (H * D), mmRelPosKeyText P m tf2 h i l t = 0 := by
    intro tf2
    simp [mmRelPosKeyText, relPosEmbedText, RelativePosition.forward,
      MMAttnParams.relativePositionsText, htab]
  have hrelQ : ∀ tf2 : T3 b s (H * D), mmRelPosQueryText P m tf2 h i l t = 0 := by
    intro tf2
    simp [mmRelPosQueryText, relPosEmbedText, RelativePosition.forward,
      MMAttnParams.relativePositionsText, htab]
  have hsp : ∀ sf : T3 b s (H * D), mmDotsTextSpatial P sf h i l t = 0 := by
    intro sf
    simp [mmDotsTextSpatial, mmQuerySpatial, splitHeads, linear3, hwqs, hbqs]
  simp only [mmScoresText, hdots, hrelK, hrelQ, hsp]
  ring

/-- Concrete attention parameters for the C9 counterexample: one head of
dimension one, identity text q/k projections, everything else (including the
relative-position tables and the spatial projections) zero. -/
noncomputable def attnParamsEx9 : MMAttnParams 1 1 0 :=
  ⟨fun _ _ => 1, fun _ _ => 1, fun _ _ => 0, fun _ _ => 0, fun _ _ => 0, fun _ _ => 0,
   fun _ _ => 0, fun _ _ => 0, fun _ _ => 0,
   fun _ => 0, fun _ => 0, fun _ => 0, fun _ => 0, fun _ => 0, fun _ => 0,
   fun _ => 0, fun _ => 0, fun _ => 0,
   fun _ _ => 0, fun _ _ => 0⟩

/-- Concrete text features for the C9 counterexample: batch 1, two positions,
embedding `[1]` at position 0 and `[0]` at position 1. -/
noncomputable def tfEx9 : T3 1 2 1 := fun _ t _ => if t.val = 0 then 1 else 0

/-- Zero spatial features for the C9 counterexample. -/
noncomputable def zeroT3Ex9 : T3 1 2 1 := fun _ _ _ => 0

/-- The text attention probability at head 0, batch 0, query 0, key 0 for
`tfEx9` under `attnParamsEx9`. -/
theorem probsEx9_base :
    mmAttnProbsText attnParamsEx9 2 tfEx9 zeroT3Ex9 0 0 0 0 =
      Real.exp 1 / (Real.exp 1 + Real.exp 0) := by
  simp [mmAttnProbsText, softmaxR, mmScoresText, mmDotsText, mmRelPosKeyText,
    mmRelPosQueryText, mmDotsTextSpatial, mmQueryText, mmKeyText, mmQuerySpatial,
    mmKeySpatial, splitHeads, linear3, relPosEmbedText, RelativePosition.forward,
    MMAttnParams.relativePositionsText, attnParamsEx9, tfEx9, zeroT3Ex9, attnScale,
    Fin.sum_univ_two, Fin.sum_univ_one, Real.sqrt_one]

/-- The same probability after multiplying all inputs by `c = 2`. -/
theorem probsEx9_scaled :
    mmAttnProbsText attnParamsEx9 2 (fun i t j => 2 * tfEx9 i t j)
        (fun i t j => 2 * zeroT3Ex9 i t j) 0 0 0 0 =
      Real.exp 4 / (Real.exp 4 + Real.exp 0) := by
  have h4 : (2 : ℝ) * 1 * (2 * 1) = 4 := by norm_num
  simp [mmAttnProbsText, softmaxR, mmScoresText, mmDotsText, mmRelPosKeyText,
    mmRelPosQueryText, mmDotsTextSpatial, mmQueryText, mmKeyText, mmQuerySpatial,
    mmKeySpatial, splitHeads, linear3, relPosEmbedText, RelativePosition.forward,
    MMAttnParams.relativePositionsText, attnParamsEx9, tfEx9, zeroT3Ex9, attnScale,
    Fin.sum_univ_two, Fin.sum_univ_one, Real.sqrt_one]
  norm_num

/-- `x / (x + 1)` is strictly monotone in `x > 0`, so the two softmax values
differ. -/
theorem probsEx9_lt :
    Real.exp 1 / (Real.exp 1 + Real.exp 0) < Real.exp 4 / (Real.exp 4 + Real.exp 0) := by
  rw [Real.exp_zero]
  rw [div_lt_div_iff₀ (by positivity) (by positivity)]
  have h1 : Real.exp 1 < Real.exp 4 := Real.exp_lt_exp.mpr (by norm_num)
  nlinarith [Real.exp_pos 1, Real.exp_pos 4]

/-- C9 counterexample: with zero relative-position and spatial score terms and
in evaluation mode, multiplying all input embeddings by `c = 2` *changes* the
softmax attention probability (entry (0,0,0,0)) of `MultiModalAttentionLayer`,
refuting the claimed scale invariance. -/
theorem claim9_counterexample :
    mmAttnProbsText attnParamsEx9 2 (fun i t j => 2 * tfEx9 i t j)
        (fun i t j => 2 * zeroT3Ex9 i t j) 0 0 0 0 ≠
      mmAttnProbsText attnParamsEx9 2 tfEx9 zeroT3Ex9 0 0 0 0 := by
  rw [probsEx9_base, probsEx9_scaled]
  exact ne_of_gt probsEx9_lt

/-- Witness for C9 (amended) at the concrete instance `attnParamsEx9`,
`tfEx9`, `c = 2`. -/
theorem claim9_scores_scale_quadratically_witness :
    (∀ j, attnParamsEx9.fcQTextB j = 0) ∧ (∀ j, attnParamsEx9.fcKTextB j = 0) ∧
    (∀ r u, attnParamsEx9.tableText r u = 0) ∧
    (∀ j k2, attnParamsEx9.fcQSpatialW j k2 = 0) ∧
    (∀ j, attnParamsEx9.fcQSpatialB j = 0) ∧
    (∀ (h : Fin 1) (i : Fin 1) (l t : Fin 2),
      mmScoresText attnParamsEx9 2 (fun i2 t2 j => (2 : ℝ) * tfEx9 i2 t2 j)
          (fun i2 t2 j => (2 : ℝ) * zeroT3Ex9 i2 t2 j) h i l t =
        (2 : ℝ) ^ 2 * mmScoresText attnParamsEx9 2 tfEx9 zeroT3Ex9 h i l t) :=
  ⟨fun _ => rfl, fun _ => rfl, fun _ _ => rfl, fun _ _ => rfl, fun _ => rfl,
   claim9_scores_scale_quadratically attnParamsEx9 2 tfEx9 zeroT3Ex9 2
     (fun _ => rfl) (fun _ => rfl) (fun _ _ => rfl) (fun _ _ => rfl) (fun _ => rfl)⟩

/-! ## DocFormerEmbeddings construction and sub-band slicing (lines 13-28, 58-220)

`__init__` builds two `PositionalEncoding` submodules and the embedding
tables.  It performs no divisibility-by-8 check; the only failing step is
inside `PositionalEncoding.__init__` (line 23), whose
`pe[0, :, 1::2] = torch.cos(position * div_term)` writes a
`(max_len, ⌈d_model/2⌉)` tensor into a slice with `⌊d_model/2⌋` columns and
therefore raises exactly when `d_model = hidden_size` is odd.  For even
`hidden_size` construction succeeds, and the forward-time loop writes table
`i`'s output into channels `[i*sub_dim, (i+1)*sub_dim)` with
`sub_dim = hidden_size // 8` (floor), so an even `hidden_size` not divisible
by 8 leaves the top `hidden_size mod 8` channels at their `torch.zeros`
initialization instead of failing. -/

namespace Dyn

/-! ## Dynamic-shape model of the attention layer and encoder

Tensors carry their dimensions as data; the shape checks torch performs at
run time (linear input width, einops factorization, einsum shared-label
agreement, elementwise-add shape agreement) return `none` on mismatch.
Size-1 broadcasting is not modelled; the theorems below only ever compare
dimensions that are ≥ 2 apart from genuinely equal ones. -/

/-- A rank-3 tensor of dynamic shape `(n1, n2, n3)`. -/
structure DT3 where
  n1 : ℕ
  n2 : ℕ
  n3 : ℕ
  val : ℕ → ℕ → ℕ → ℝ

/-- A rank-4 tensor of dynamic shape `(n1, n2, n3, n4)`. -/
structure DT4 where
  n1 : ℕ
  n2 : ℕ
  n3 : ℕ
  n4 : ℕ
  val : ℕ → ℕ → ℕ → ℕ → ℝ

/-- Sum of `f k` for `k < n`. -/
noncomputable def sumR (n : ℕ) (f : ℕ → ℝ) : ℝ := ∑ k ∈ Finset.range n, f k

/-- `nn.Linear(inF, outF)` on the last axis; fails unless the input's last
dimension equals `inF`. -/
noncomputable def linearD (W : ℕ → ℕ → ℝ) (bias : ℕ → ℝ) (inF outF : ℕ)
    (x : DT3) : Option DT3 :=
  if x.n3 = inF then
    some ⟨x.n1, x.n2, outF, fun i t j => sumR inF (fun k => W j k * x.val i t k) + bias j⟩
  else none

/-- einops `rearrange('b t (head k) -> head b t k', head=heads)`: requires the
last dimension to factor exactly into `heads` groups. -/
noncomputable def splitHeadsD (heads : ℕ) (x : DT3) : Option DT4 :=
  if 0 < heads ∧ heads ∣ x.n3 then
    some ⟨heads, x.n1, x.n2, x.n3 / heads,
      fun h i t k => x.val i t (h * (x.n3 / heads) + k)⟩
  else none

/-- `einsum('hblk,hbtk->hblt', q, k) / scale`: shared labels `h`, `b`, `k`
must agree. -/
noncomputable def einsumDotsD (q k : DT4) (scale : ℝ) : Option DT4 :=
  if q.n1 = k.n1 ∧ q.n2 = k.n2 ∧ q.n4 = k.n4 then
    some ⟨q.n1, q.n2, q.n3, k.n3,
      fun h i l t => sumR q.n4 (fun d => q.val h i l d * k.val h i t d) / scale⟩
  else none

/-- `einsum('bhrd,lrd->bhlr', key, rel)`: shared labels `r` (the key tensor's
position axis vs the relative embedding's second axis) and `d` must agree. -/
noncomputable def einsumRelKeyD (key : DT4) (rel : DT3) : Option DT4 :=
  if key.n3 = rel.n2 ∧ key.n4 = rel.n3 then
    some ⟨key.n1, key.n2, rel.n1, key.n3,
      fun h i l r => sumR key.n4 (fun d => key.val h i r d * rel.val l r d)⟩
  else none

/-- `einsum('bhld,lrd->bhlr', query, rel)`: shared labels `l` and `d`. -/
noncomputable def einsumRelQueryD (q : DT4) (rel : DT3) : Option DT4 :=
  if q.n3 = rel.n1 ∧ q.n4 = rel.n3 then
    some ⟨q.n1, q.n2, q.n3, rel.n2,
      fun h i l r => sumR q.n4 (fun d => q.val h i l d * rel.val l r d)⟩
  else none

/-- Elementwise `+` of equal-shaped rank-4 tensors. -/
noncomputable def addD (a c : DT4) : Option DT4 :=
  if a.n1 = c.n1 ∧ a.n2 = c.n2 ∧ a.n3 = c.n3 ∧ a.n4 = c.n4 then
    some ⟨a.n1, a.n2, a.n3, a.n4, fun h i l t => a.val h i l t + c.val h i l t⟩
  else none

/-- Elementwise `+` of equal-shaped rank-3 tensors. -/
noncomputable def addD3 (a c : DT3) : Option DT3 :=
  if a.n1 = c.n1 ∧ a.n2 = c.n2 ∧ a.n3 = c.n3 then
    some ⟨a.n1, a.n2, a.n3, fun i t j => a.val i t j + c.val i t j⟩
  else none

/-- `torch.softmax(x, dim=-1)`: shape-preserving, never fails. -/
noncomputable def softmaxD (x : DT4) : DT4 :=
  ⟨x.n1, x.n2, x.n3, x.n4,
   fun h i l t => Real.exp (x.val h i l t) / sumR x.n4 (fun u => Real.exp (x.val h i l u))⟩

/-- `einsum('hblt,hbtv->hblv', probs, value)`. -/
noncomputable def einsumContextD (probs v : DT4) : Option DT4 :=
  if probs.n1 = v.n1 ∧ probs.n2 = v.n2 ∧ probs.n4 = v.n3 then
    some ⟨probs.n1, probs.n2, probs.n3, v.n4,
      fun h i l u => sumR probs.n4 (fun t => probs.val h i l t * v.val h i t u)⟩
  else none

/-- einops `rearrange('head b t d -> b t (head d)')`: never fails. -/
noncomputable def mergeHeadsD (c : DT4) : DT3 :=
  ⟨c.n2, c.n3, c.n1 * c.n4, fun i t j => c.val (j / c.n4) i t (j % c.n4)⟩

/-- A `RelativePosition.forward` slice as a dynamically-shaped tensor. -/
def relPosForwardD (rp : RelativePosition ℝ) (lq lk : ℕ) : DT3 :=
  ⟨(rp.forward lq lk).rows, (rp.forward lq lk).cols, (rp.forward lq lk).units,
   (rp.forward lq lk).val⟩

/-- `MultiModalAttentionLayer` parameters in the dynamic model: the
constructor arguments and the learned weights. -/
structure AttnParams where
  embedDim : ℕ
  nHeads : ℕ
  maxRelativePosition : ℕ
  maxSeqLength : ℕ
  fcKTextW : ℕ → ℕ → ℝ
  fcQTextW : ℕ → ℕ → ℝ
  fcVTextW : ℕ → ℕ → ℝ
  fcKImgW : ℕ → ℕ → ℝ
  fcQImgW : ℕ → ℕ → ℝ
  fcVImgW : ℕ → ℕ → ℝ
  fcKSpatialW : ℕ → ℕ → ℝ
  fcQSpatialW : ℕ → ℕ → ℝ
  toOutW : ℕ → ℕ → ℝ
  fcKTextB : ℕ → ℝ
  fcQTextB : ℕ → ℝ
  fcVTextB : ℕ → ℝ
  fcKImgB : ℕ → ℝ
  fcQImgB : ℕ → ℝ
  fcVImgB : ℕ → ℝ
  fcKSpatialB : ℕ → ℝ
  fcQSpatialB : ℕ → ℝ
  toOutB : ℕ → ℝ
  tableText : ℕ → ℕ → ℝ
  tableImg : ℕ → ℕ → ℝ

/-- `self.relative_positions_text` (line 298): a `RelativePosition` with
`num_units = head_dim = embed_dim // n_heads`. -/
def AttnParams.relativePositionsText (P : AttnParams) : RelativePosition ℝ :=
  ⟨P.embedDim / P.nHeads, P.maxRelativePosition, P.maxSeqLength, P.tableText⟩

/-- `self.relative_positions_img` (line 299). -/
def AttnParams.relativePositionsImg (P : AttnParams) : RelativePosition ℝ :=
  ⟨P.embedDim / P.nHeads, P.maxRelativePosition, P.maxSeqLength, P.tableImg⟩

/-- `MultiModalAttentionLayer.forward` (lines 323-382) in the dynamic model,
line for line; `none` wherever torch would raise a shape error.  The image
branch computes `rel_pos_embed_img` (line 359) and then reads
`rel_pos_embed_text` in both of its relative-position einsums (lines
360-361). -/
noncomputable def forward (P : AttnParams)
    (textFeat imgFeat textSpatialFeat imgSpatialFeat : DT3) : Option DT3 := do
  let seqLength := textFeat.n2
  let keyTextNh ← splitHeadsD P.nHeads
    (← linearD P.fcKTextW P.fcKTextB P.embedDim P.embedDim textFeat)
  let queryTextNh ← splitHeadsD P.nHeads
    (← linearD P.fcQTextW P.fcQTextB P.embedDim P.embedDim textFeat)
  let valueTextNh ← splitHeadsD P.nHeads
    (← linearD P.fcVTextW P.fcVTextB P.embedDim P.embedDim textFeat)
  let dotsText ← einsumDotsD queryTextNh keyTextNh (attnScale P.embedDim)
  let relPosEmbedTextD := relPosForwardD P.relativePositionsText seqLength seqLength
  let relPosKeyText ← einsumRelKeyD keyTextNh relPosEmbedTextD
  let relPosQueryText ← einsumRelQueryD queryTextNh relPosEmbedTextD
  let keySpatialTextNh ← splitHeadsD P.nHeads
    (← linearD P.fcKSpatialW P.fcKSpatialB P.embedDim P.embedDim textSpatialFeat)
  let querySpatialTextNh ← splitHeadsD P.nHeads
    (← linearD P.fcQSpatialW P.fcQSpatialB P.embedDim P.embedDim textSpatialFeat)
  let dotsTextSpatial ← einsumDotsD querySpatialTextNh keySpatialTextNh (attnScale P.embedDim)
  let textAttnScores ← addD (← addD (← addD dotsText relPosKeyText) relPosQueryText)
    dotsTextSpatial
  let keyImgNh ← splitHeadsD P.nHeads
    (← linearD P.fcKImgW P.fcKImgB P.embedDim P.embedDim imgFeat)
  let queryImgNh ← splitHeadsD P.nHeads
    (← linearD P.fcQImgW P.fcQImgB P.embedDim P.embedDim imgFeat)
  let valueImgNh ← splitHeadsD P.nHeads
    (← linearD P.fcVImgW P.fcVImgB P.embedDim P.embedDim imgFeat)
  let dotsImg ← einsumDotsD queryImgNh keyImgNh (attnScale P.embedDim)
  let _relPosEmbedImgD := relPosForwardD P.relativePositionsImg seqLength seqLength
  let relPosKeyImg ← einsumRelKeyD keyImgNh relPosEmbedTextD
  let relPosQueryImg ← einsumRelQueryD queryImgNh relPosEmbedTextD
  let keySpatialImgNh ← splitHeadsD P.nHeads
    (← linearD P.fcKSpatialW P.fcKSpatialB P.embedDim P.embedDim imgSpatialFeat)
  let querySpatialImgNh ← splitHeadsD P.nHeads
    (← linearD P.fcQSpatialW P.fcQSpatialB P.embedDim P.embedDim imgSpatialFeat)
  let dotsImgSpatial ← einsumDotsD querySpatialImgNh keySpatialImgNh (attnScale P.embedDim)
  let imgAttnScores ← addD (← addD (← addD dotsImg relPosKeyImg) relPosQueryImg)
    dotsImgSpatial
  let textAttnProbs := softmaxD textAttnScores
  let imgAttnProbs := softmaxD imgAttnScores
  let textContext ← einsumContextD textAttnProbs valueTextNh
  let imgContext ← einsumContextD imgAttnProbs valueImgNh
  let context ← addD textContext imgContext
  let embeddings := mergeHeadsD context
  linearD P.toOutW P.toOutB P.embedDim P.embedDim embeddings

/-- do-notation bind on a `some`, as a definitional rewrite. -/
theorem bindSomeEq {α β : Type} (a : α) (f : α → Option β) :
    (some a >>= f) = f a := rfl

/-- do-notation bind on `none`, as a definitional rewrite. -/
theorem bindNoneEq {α β : Type} (f : α → Option β) :
    ((none : Option α) >>= f) = none := rfl

/-- `linearD` succeeds on a width-matching input, preserving the leading
dimensions. -/
theorem linearD_some (W : ℕ → ℕ → ℝ) (bias : ℕ → ℝ) (inF outF : ℕ) (x : DT3)
    (h : x.n3 = inF) :
    ∃ y, linearD W bias inF outF x = some y ∧ y.n1 = x.n1 ∧ y.n2 = x.n2 ∧ y.n3 = outF :=
  ⟨⟨x.n1, x.n2, outF, fun i t j => sumR inF (fun k => W j k * x.val i t k) + bias j⟩,
   by unfold linearD; rw [if_pos h], rfl, rfl, rfl⟩

/-- `splitHeadsD` succeeds when the head count is positive and divides the
last dimension. -/
theorem splitHeadsD_some (heads : ℕ) (x : DT3) (hH : 0 < heads) (hdvd : heads ∣ x.n3) :
    ∃ y, splitHeadsD heads x = some y ∧ y.n1 = heads ∧ y.n2 = x.n1 ∧ y.n3 = x.n2 ∧
      y.n4 = x.n3 / heads :=
  ⟨⟨heads, x.n1, x.n2, x.n3 / heads, fun h i t k => x.val i t (h * (x.n3 / heads) + k)⟩,
   by unfold splitHeadsD; rw [if_pos ⟨hH, hdvd⟩], rfl, rfl, rfl, rfl⟩

/-- `einsumDotsD` succeeds when the shared labels agree. -/
theorem einsumDotsD_some (q k : DT4) (scale : ℝ)
    (h1 : q.n1 = k.n1) (h2 : q.n2 = k.n2) (h4 : q.n4 = k.n4) :
    ∃ y, einsumDotsD q k scale = some y ∧ y.n1 = q.n1 ∧ y.n2 = q.n2 ∧ y.n3 = q.n3 ∧
      y.n4 = k.n3 :=
  ⟨⟨q.n1, q.n2, q.n3, k.n3,
    fun h i l t => sumR q.n4 (fun d => q.val h i l d * k.val h i t d) / scale⟩,
   by unfold einsumDotsD; rw [if_pos ⟨h1, h2, h4⟩], rfl, rfl, rfl, rfl⟩

/-- `einsumRelKeyD` succeeds when the shared labels agree. -/
theorem einsumRelKeyD_some (key : DT4) (rel : DT3)
    (h3 : key.n3 = rel.n2) (h4 : key.n4 = rel.n3) :
    ∃ y, einsumRelKeyD key rel = some y ∧ y.n1 = key.n1 ∧ y.n2 = key.n2 ∧
      y.n3 = rel.n1 ∧ y.n4 = key.n3 :=
  ⟨⟨key.n1, key.n2, rel.n1, key.n3,
    fun h i l r => sumR key.n4 (fun d => key.val h i r d * rel.val l r d)⟩,
   by unfold einsumRelKeyD; rw [if_pos ⟨h3, h4⟩], rfl, rfl, rfl, rfl⟩

/-- `einsumRelKeyD` fails when the `r` label disagrees — the failure hit by
over-long sequences. -/
theorem einsumRelKeyD_none (key : DT4) (rel : DT3) (h : key.n3 ≠ rel.n2) :
    einsumRelKeyD key rel = none := by
  unfold einsumRelKeyD
  rw [if_neg]
  intro hc
  exact h hc.1

/-- `einsumRelQueryD` succeeds when the shared labels agree. -/
theorem einsumRelQueryD_some (q : DT4) (rel : DT3)
    (h3 : q.n3 = rel.n1) (h4 : q.n4 = rel.n3) :
    ∃ y, einsumRelQueryD q rel = some y ∧ y.n1 = q.n1 ∧ y.n2 = q.n2 ∧
      y.n3 = q.n3 ∧ y.n4 = rel.n2 :=
  ⟨⟨q.n1, q.n2, q.n3, rel.n2,
    fun h i l r => sumR q.n4 (fun d => q.val h i l d * rel.val l r d)⟩,
   by unfold einsumRelQueryD; rw [if_pos ⟨h3, h4⟩], rfl, rfl, rfl, rfl⟩

/-- `addD` succeeds on equal shapes. -/
theorem addD_some (a c : DT4)
    (h1 : a.n1 = c.n1) (h2 : a.n2 = c.n2) (h3 : a.n3 = c.n3) (h4 : a.n4 = c.n4) :
    ∃ y, addD a c = some y ∧ y.n1 = a.n1 ∧ y.n2 = a.n2 ∧ y.n3 = a.n3 ∧ y.n4 = a.n4 :=
  ⟨⟨a.n1, a.n2, a.n3, a.n4, fun h i l t => a.val h i l t + c.val h i l t⟩,
   by unfold addD; rw [if_pos ⟨h1, h2, h3, h4⟩], rfl, rfl, rfl, rfl⟩

/-- `addD3` succeeds on equal shapes. -/
theorem addD3_some (a c : DT3) (h1 : a.n1 = c.n1) (h2 : a.n2 = c.n2) (h3 : a.n3 = c.n3) :
    ∃ y, addD3 a c = some y ∧ y.n1 = a.n1 ∧ y.n2 = a.n2 ∧ y.n3 = a.n3 :=
  ⟨⟨a.n1, a.n2, a.n3, fun i t j => a.val i t j + c.val i t j⟩,
   by unfold addD3; rw [if_pos ⟨h1, h2, h3⟩], rfl, rfl, rfl⟩

/-- `einsumContextD` succeeds when the shared labels agree. -/
theorem einsumContextD_some (probs v : DT4)
    (h1 : probs.n1 = v.n1) (h2 : probs.n2 = v.n2) (h43 : probs.n4 = v.n3) :
    ∃ y, einsumContextD probs v = some y ∧ y.n1 = probs.n1 ∧ y.n2 = probs.n2 ∧
      y.n3 = probs.n3 ∧ y.n4 = v.n4 :=
  ⟨⟨probs.n1, probs.n2, probs.n3, v.n4,
    fun h i l u => sumR probs.n4 (fun t => probs.val h i l t * v.val h i t u)⟩,
   by unfold einsumContextD; rw [if_pos ⟨h1, h2, h43⟩], rfl, rfl, rfl, rfl⟩

/-- Wellformedness of an attention call: positive head count dividing the
embedding width, all four inputs of the same `(b, s, embed_dim)` shape,
sequence length within `max_seq_length`: the forward call succeeds and its
output has the text input's shape. -/
theorem forward_wf {P : AttnParams} {tf imf tsf imsf : DT3}
    (hH : 0 < P.nHeads) (hdvd : P.nHeads ∣ P.embedDim)
    (ht3 : tf.n3 = P.embedDim)
    (hi1 : imf.n1 = tf.n1) (hi2 : imf.n2 = tf.n2) (hi3 : imf.n3 = P.embedDim)
    (hts1 : tsf.n1 = tf.n1) (hts2 : tsf.n2 = tf.n2) (hts3 : tsf.n3 = P.embedDim)
    (his1 : imsf.n1 = tf.n1) (his2 : imsf.n2 = tf.n2) (his3 : imsf.n3 = P.embedDim)
    (hs : tf.n2 ≤ P.maxSeqLength) :
    ∃ out, forward P tf imf tsf imsf = some out ∧
      out.n1 = tf.n1 ∧ out.n2 = tf.n2 ∧ out.n3 = P.embedDim := by
  have hrel1 : (relPosForwardD P.relativePositionsText tf.n2 tf.n2).n1 = tf.n2 :=
    Nat.min_eq_left hs
  have hrel2 : (relPosForwardD P.relativePositionsText tf.n2 tf.n2).n2 = tf.n2 :=
    Nat.min_eq_left hs
  have hrel3 : (relPosForwardD P.relativePositionsText tf.n2 tf.n2).n3 =
      P.embedDim / P.nHeads := rfl
  obtain ⟨KL, hKL, hKL1, hKL2, hKL3⟩ :=
    linearD_some P.fcKTextW P.fcKTextB P.embedDim P.embedDim tf
      ht3
  obtain ⟨KT, hKT, hKT1, hKT2, hKT3, hKT4⟩ :=
    splitHeadsD_some P.nHeads KL hH
      (by rw [hKL3]; exact hdvd)
  obtain ⟨QL, hQL, hQL1, hQL2, hQL3⟩ :=
    linearD_some P.fcQTextW P.fcQTextB P.embedDim P.embedDim tf
      ht3
  obtain ⟨QT, hQT, hQT1, hQT2, hQT3, hQT4⟩ :=
    splitHeadsD_some P.nHeads QL hH
      (by rw [hQL3]; exact hdvd)
  obtain ⟨VL, hVL, hVL1, hVL2, hVL3⟩ :=
    linearD_some P.fcVTextW P.fcVTextB P.embedDim P.embedDim tf
      ht3
  obtain ⟨VT, hVT, hVT1, hVT2, hVT3, hVT4⟩ :=
    splitHeadsD_some P.nHeads VL hH
      (by rw [hVL3]; exact hdvd)
  obtain ⟨DT, hDT, hDT1, hDT2, hDT3, hDT4⟩ :=
    einsumDotsD_some QT KT (attnScale P.embedDim)
      (by simp only [hQT1, hKT1]) (by simp only [hQT2, hKT2, hQL1, hKL1]) (by simp only [hQT4, hKT4, hQL3, hKL3])
  obtain ⟨RK, hRK, hRK1, hRK2, hRK3, hRK4⟩ :=
    einsumRelKeyD_some KT (relPosForwardD P.relativePositionsText tf.n2 tf.n2)
      (by simp only [hKT3, hKL2, hrel2]) (by simp only [hKT4, hKL3, hrel3])
  obtain ⟨RQ, hRQ, hRQ1, hRQ2, hRQ3, hRQ4⟩ :=
    einsumRelQueryD_some QT (relPosForwardD P.relativePositionsText tf.n2 tf.n2)
      (by simp only [hQT3, hQL2, hrel1]) (by simp only [hQT4, hQL3, hrel3])
  obtain ⟨KSL, hKSL, hKSL1, hKSL2, hKSL3⟩ :=
    linearD_some P.fcKSpatialW P.fcKSpatialB P.embedDim P.embedDim tsf
      hts3
  obtain ⟨KS, hKS, hKS1, hKS2, hKS3, hKS4⟩ :=
    splitHeadsD_some P.nHeads KSL hH
      (by rw [hKSL3]; exact hdvd)
  obtain ⟨QSL, hQSL, hQSL1, hQSL2, hQSL3⟩ :=
    linearD_some P.fcQSpatialW P.fcQSpatialB P.embedDim P.embedDim tsf
      hts3
  obtain ⟨QS, hQS, hQS1, hQS2, hQS3, hQS4⟩ :=
    splitHeadsD_some P.nHeads QSL hH
      (by rw [hQSL3]; exact hdvd)
  obtain ⟨DS, hDS, hDS1, hDS2, hDS3, hDS4⟩ :=
    einsumDotsD_some QS KS (attnScale P.embedDim)
      (by simp only [hQS1, hKS1]) (by simp only [hQS2, hKS2, hQSL1, hKSL1]) (by simp only [hQS4, hKS4, hQSL3, hKSL3])
  obtain ⟨A1, hA1, hA11, hA12, hA13, hA14⟩ :=
    addD_some DT RK
      (by simp only [hDT1, hRK1, hQT1, hKT1]) (by simp only [hDT2, hRK2, hQT2, hKT2, hQL1, hKL1]) (by simp only [hDT3, hRK3, hQT3, hQL2, hrel1]) (by simp only [hDT4, hRK4])
  obtain ⟨A2, hA2, hA21, hA22, hA23, hA24⟩ :=
    addD_some A1 RQ
      (by simp only [hA11, hRQ1, hDT1, hQT1]) (by simp only [hA12, hRQ2, hDT2, hQT2]) (by simp only [hA13, hRQ3, hDT3]) (by simp only [hA14, hRQ4, hDT4, hKT3, hKL2, hrel2])
  obtain ⟨TS, hTS, hTS1, hTS2, hTS3, hTS4⟩ :=
    addD_some A2 DS
      (by simp only [hA21, hDS1, hA11, hDT1, hQT1, hQS1]) (by simp only [hA22, hDS2, hA12, hDT2, hQT2, hQL1, hQS2, hQSL1, hts1]) (by simp only [hA23, hDS3, hA13, hDT3, hQT3, hQL2, hQS3, hQSL2, hts2]) (by simp only [hA24, hDS4, hA14, hDT4, hKT3, hKL2, hKS3, hKSL2, hts2])
  obtain ⟨KIL, hKIL, hKIL1, hKIL2, hKIL3⟩ :=
    linearD_some P.fcKImgW P.fcKImgB P.embedDim P.embedDim imf
      hi3
  obtain ⟨KI, hKI, hKI1, hKI2, hKI3, hKI4⟩ :=
    splitHeadsD_some P.nHeads KIL hH
      (by rw [hKIL3]; exact hdvd)
  obtain ⟨QIL, hQIL, hQIL1, hQIL2, hQIL3⟩ :=
    linearD_some P.fcQImgW P.fcQImgB P.embedDim P.embedDim imf
      hi3
  obtain ⟨QI, hQI, hQI1, hQI2, hQI3, hQI4⟩ :=
    splitHeadsD_some P.nHeads QIL hH
      (by rw [hQIL3]; exact hdvd)
  obtain ⟨VIL, hVIL, hVIL1, hVIL2, hVIL3⟩ :=
    linearD_some P.fcVImgW P.fcVImgB P.embedDim P.embedDim imf
      hi3
  obtain ⟨VI, hVI, hVI1, hVI2, hVI3, hVI4⟩ :=
    splitHeadsD_some P.nHeads VIL hH
      (by rw [hVIL3]; exact hdvd)
  obtain ⟨DI, hDI, hDI1, hDI2, hDI3, hDI4⟩ :=
    einsumDotsD_some QI KI (attnScale P.embedDim)
      (by simp only [hQI1, hKI1]) (by simp only [hQI2, hKI2, hQIL1, hKIL1]) (by simp only [hQI4, hKI4, hQIL3, hKIL3])
  obtain ⟨RKI, hRKI, hRKI1, hRKI2, hRKI3, hRKI4⟩ :=
    einsumRelKeyD_some KI (relPosForwardD P.relativePositionsText tf.n2 tf.n2)
      (by simp only [hKI3, hKIL2, hi2, hrel2]) (by simp only [hKI4, hKIL3, hrel3])
  obtain ⟨RQI, hRQI, hRQI1, hRQI2, hRQI3, hRQI4⟩ :=
    einsumRelQueryD_some QI (relPosForwardD P.relativePositionsText tf.n2 tf.n2)
      (by simp only [hQI3, hQIL2, hi2, hrel1]) (by simp only [hQI4, hQIL3, hrel3])
  obtain ⟨KSIL, hKSIL, hKSIL1, hKSIL2, hKSIL3⟩ :=
    linearD_some P.fcKSpatialW P.fcKSpatialB P.embedDim P.embedDim imsf
      his3
  obtain ⟨KSI, hKSI, hKSI1, hKSI2, hKSI3, hKSI4⟩ :=
    splitHeadsD_some P.nHeads KSIL hH
      (by rw [hKSIL3]; exact hdvd)
  obtain ⟨QSIL, hQSIL, hQSIL1, hQSIL2, hQSIL3⟩ :=
    linearD_some P.fcQSpatialW P.fcQSpatialB P.embedDim P.embedDim imsf
      his3
  obtain ⟨QSI, hQSI, hQSI1, hQSI2, hQSI3, hQSI4⟩ :=
    splitHeadsD_some P.nHeads QSIL hH
      (by rw [hQSIL3]; exact hdvd)
  obtain ⟨DSI, hDSI, hDSI1, hDSI2, hDSI3, hDSI4⟩ :=
    einsumDotsD_some QSI KSI (attnScale P.embedDim)
      (by simp only [hQSI1, hKSI1]) (by simp only [hQSI2, hKSI2, hQSIL1, hKSIL1]) (by simp only [hQSI4, hKSI4, hQSIL3, hKSIL3])
  obtain ⟨B1, hB1, hB11, hB12, hB13, hB14⟩ :=
    addD_some DI RKI
      (by simp only [hDI1, hRKI1, hQI1, hKI1]) (by simp only [hDI2, hRKI2, hQI2, hKI2, hQIL1, hKIL1]) (by simp only [hDI3, hRKI3, hQI3, hQIL2, hi2, hrel1]) (by simp only [hDI4, hRKI4])
  obtain ⟨B2, hB2, hB21, hB22, hB23, hB24⟩ :=
    addD_some B1 RQI
      (by simp only [hB11, hRQI1, hDI1, hQI1]) (by simp only [hB12, hRQI2, hDI2, hQI2]) (by simp only [hB13, hRQI3, hDI3]) (by simp only [hB14, hRQI4, hDI4, hKI3, hKIL2, hi2, hrel2])
  obtain ⟨IS, hIS, hIS1, hIS2, hIS3, hIS4⟩ :=
    addD_some B2 DSI
      (by simp only [hB21, hDSI1, hB11, hDI1, hQI1, hQSI1]) (by simp only [hB22, hDSI2, hB12, hDI2, hQI2, hQIL1, hQSI2, hQSIL1, hi1, his1]) (by simp only [hB23, hDSI3, hB13, hDI3, hQI3, hQIL2, hQSI3, hQSIL2, hi2, his2]) (by simp only [hB24, hDSI4, hB14, hDI4, hKI3, hKIL2, hKSI3, hKSIL2, hi2, his2])
  obtain ⟨TC, hTC, hTC1, hTC2, hTC3, hTC4⟩ :=
    einsumContextD_some (softmaxD TS) VT
      (by simp only [softmaxD, hTS1, hA21, hA11, hDT1, hQT1, hVT1]) (by simp only [softmaxD, hTS2, hA22, hA12, hDT2, hQT2, hQL1, hVT2, hVL1]) (by simp only [softmaxD, hTS4, hA24, hA14, hDT4, hKT3, hKL2, hVT3, hVL2])
  obtain ⟨IC, hIC, hIC1, hIC2, hIC3, hIC4⟩ :=
    einsumContextD_some (softmaxD IS) VI
      (by simp only [softmaxD, hIS1, hB21, hB11, hDI1, hQI1, hVI1]) (by simp only [softmaxD, hIS2, hB22, hB12, hDI2, hQI2, hQIL1, hVI2, hVIL1]) (by simp only [softmaxD, hIS4, hB24, hB14, hDI4, hKI3, hKIL2, hVI3, hVIL2])
  obtain ⟨CX, hCX, hCX1, hCX2, hCX3, hCX4⟩ :=
    addD_some TC IC
      (by simp only [hTC1, hIC1, softmaxD, hTS1, hA21, hA11, hDT1, hQT1, hIS1, hB21, hB11, hDI1, hQI1]) (by simp only [hTC2, hIC2, softmaxD, hTS2, hA22, hA12, hDT2, hQT2, hQL1, hIS2, hB22, hB12, hDI2, hQI2, hQIL1, hi1]) (by simp only [hTC3, hIC3, softmaxD, hTS3, hA23, hA13, hDT3, hQT3, hQL2, hIS3, hB23, hB13, hDI3, hQI3, hQIL2, hi2]) (by simp only [hTC4, hIC4, hVT4, hVL3, hVI4, hVIL3])
  obtain ⟨O, hO, hO1, hO2, hO3⟩ :=
    linearD_some P.toOutW P.toOutB P.embedDim P.embedDim (mergeHeadsD CX)
      (by
        simp only [mergeHeadsD, hCX1, hCX4, hTC1, hTC4, softmaxD, hTS1, hA21, hA11,
          hDT1, hQT1, hVT4, hVL3]
        exact Nat.mul_div_cancel' hdvd)
  refine ⟨O, ?_, ?_, ?_, ?_⟩
  · simp only [forward, hKL, hKT, hQL, hQT, hVL, hVT, hDT, hRK, hRQ, hKSL, hKS, hQSL, hQS, hDS, hA1, hA2, hTS, hKIL, hKI, hQIL, hQI, hVIL, hVI, hDI, hRKI, hRQI, hKSIL, hKSI, hQSIL, hQSI, hDSI, hB1, hB2, hIS, hTC, hIC, hCX, hO,
      bindSomeEq]
  · simp only [hO1, mergeHeadsD, hCX2, hTC2, softmaxD, hTS2, hA22, hA12, hDT2, hQT2, hQL1]
  · simp only [hO2, mergeHeadsD, hCX3, hTC3, softmaxD, hTS3, hA23, hA13, hDT3, hQT3, hQL2]
  · exact hO3

/-- Querying the layer past `max_seq_length` fails: the silently truncated
relative-position slice no longer matches the key tensor's position axis in
`einsum('bhrd,lrd->bhlr', ...)`, so the forward call raises. -/
theorem forward_overflow {P : AttnParams} {tf imf tsf imsf : DT3}
    (hH : 0 < P.nHeads) (hdvd : P.nHeads ∣ P.embedDim)
    (ht3 : tf.n3 = P.embedDim)
    (hs : P.maxSeqLength < tf.n2) :
    forward P tf imf tsf imsf = none := by
  obtain ⟨KL, hKL, hKL1, hKL2, hKL3⟩ :=
    linearD_some P.fcKTextW P.fcKTextB P.embedDim P.embedDim tf ht3
  obtain ⟨KT, hKT, hKT1, hKT2, hKT3, hKT4⟩ :=
    splitHeadsD_some P.nHeads KL hH (by rw [hKL3]; exact hdvd)
  obtain ⟨QL, hQL, hQL1, hQL2, hQL3⟩ :=
    linearD_some P.fcQTextW P.fcQTextB P.embedDim P.embedDim tf ht3
  obtain ⟨QT, hQT, hQT1, hQT2, hQT3, hQT4⟩ :=
    splitHeadsD_some P.nHeads QL hH (by rw [hQL3]; exact hdvd)
  obtain ⟨VL, hVL, hVL1, hVL2, hVL3⟩ :=
    linearD_some P.fcVTextW P.fcVTextB P.embedDim P.embedDim tf ht3
  obtain ⟨VT, hVT, hVT1, hVT2, hVT3, hVT4⟩ :=
    splitHeadsD_some P.nHeads VL hH (by rw [hVL3]; exact hdvd)
  obtain ⟨DT, hDT, hDT1, hDT2, hDT3, hDT4⟩ :=
    einsumDotsD_some QT KT (attnScale P.embedDim)
      (by simp only [hQT1, hKT1]) (by simp only [hQT2, hKT2, hQL1, hKL1])
      (by simp only [hQT4, hKT4, hQL3, hKL3])
  have hRKnone : einsumRelKeyD KT (relPosForwardD P.relativePositionsText tf.n2 tf.n2) =
      none := by
    apply einsumRelKeyD_none
    rw [hKT3, hKL2]
    show tf.n2 ≠ min tf.n2 P.maxSeqLength
    rw [Nat.min_eq_right hs.le]
    exact hs.ne'
  simp only [forward, hKL, hKT, hQL, hQT, hVL, hVT, hDT, hRKnone,
    bindSomeEq, bindNoneEq]


/-- `nn.LayerNorm(dim)` in the dynamic model (default `eps = 1e-5`, biased
variance over the last axis); fails unless the last dimension equals `dim`. -/
noncomputable def layerNormD (γ β : ℕ → ℝ) (dim : ℕ) (x : DT3) : Option DT3 :=
  if x.n3 = dim then
    some ⟨x.n1, x.n2, x.n3, fun i t j =>
      γ j * ((x.val i t j - sumR dim (fun k => x.val i t k) / dim) /
        Real.sqrt (sumR dim
            (fun k => (x.val i t k - sumR dim (fun k2 => x.val i t k2) / dim) ^ 2) / dim +
          layerNormEps)) + β j⟩
  else none

/-- `layerNormD` succeeds on a width-matching input, preserving the shape. -/
theorem layerNormD_some (γ β : ℕ → ℝ) (dim : ℕ) (x : DT3) (h : x.n3 = dim) :
    ∃ y, layerNormD γ β dim x = some y ∧ y.n1 = x.n1 ∧ y.n2 = x.n2 ∧ y.n3 = x.n3 :=
  ⟨⟨x.n1, x.n2, x.n3, fun i t j =>
      γ j * ((x.val i t j - sumR dim (fun k => x.val i t k) / dim) /
        Real.sqrt (sumR dim
            (fun k => (x.val i t k - sumR dim (fun k2 => x.val i t k2) / dim) ^ 2) / dim +
          layerNormEps)) + β j⟩,
   by unfold layerNormD; rw [if_pos h], rfl, rfl, rfl⟩

/-- One `DocFormerEncoder` block's parameters in the dynamic model
(lines 391-404): the attention layer, five layer norms and the feed-forward
weights (`hidden_size → hidden_size * intermediate_ff_size_factor →
hidden_size`). -/
structure BlockParams where
  attn : AttnParams
  dim : ℕ
  lnTbarG : ℕ → ℝ
  lnTbarB : ℕ → ℝ
  lnVbarG : ℕ → ℝ
  lnVbarB : ℕ → ℝ
  lnTbarSG : ℕ → ℝ
  lnTbarSB : ℕ → ℝ
  lnVbarSG : ℕ → ℝ
  lnVbarSB : ℕ → ℝ
  lnFFG : ℕ → ℝ
  lnFFB : ℕ → ℝ
  ffHidden : ℕ
  ffW1 : ℕ → ℕ → ℝ
  ffB1 : ℕ → ℝ
  ffW2 : ℕ → ℕ → ℝ
  ffB2 : ℕ → ℝ

/-- `FeedForward` (linear → GELU → dropout → linear → dropout, dropout
evaluation-mode) in the dynamic model. -/
noncomputable def feedForwardD (blk : BlockParams) (x : DT3) : Option DT3 := do
  let h1 ← linearD blk.ffW1 blk.ffB1 blk.dim blk.ffHidden x
  let h2 := DT3.mk h1.n1 h1.n2 h1.n3 (fun i t j => gelu (h1.val i t j))
  linearD blk.ffW2 blk.ffB2 blk.ffHidden blk.dim h2

/-- `feedForwardD` succeeds on a width-matching input and is shape-preserving
up to the final width `dim`. -/
theorem feedForwardD_some (blk : BlockParams) (x : DT3) (h : x.n3 = blk.dim) :
    ∃ y, feedForwardD blk x = some y ∧ y.n1 = x.n1 ∧ y.n2 = x.n2 ∧ y.n3 = blk.dim := by
  obtain ⟨h1, hh1, h11, h12, h13⟩ := linearD_some blk.ffW1 blk.ffB1 blk.dim blk.ffHidden x h
  obtain ⟨h3, hh3, h31, h32, h33⟩ :=
    linearD_some blk.ffW2 blk.ffB2 blk.ffHidden blk.dim
      (DT3.mk h1.n1 h1.n2 h1.n3 (fun i t j => gelu (h1.val i t j))) h13
  refine ⟨h3, ?_, ?_, ?_, h33⟩
  · simp only [feedForwardD, hh1, bindSomeEq, hh3]
  · rw [h31]
    exact h11
  · rw [h32]
    exact h12

/-- One `DocFormerEncoder` block in the dynamic model (lines 416-420):
`skip = text + img + text_spatial + img_spatial` (raw inputs), then
`x = PreNormAttn(text, img, text_s, img_s) + skip`, then
`x = PreNorm-FeedForward(x) + x`. -/
noncomputable def blockStepD (blk : BlockParams) (tf imf tsf imsf : DT3) : Option DT3 := do
  let skip ← addD3 (← addD3 (← addD3 tf imf) tsf) imsf
  let a ← forward blk.attn (← layerNormD blk.lnTbarG blk.lnTbarB blk.dim tf)
    (← layerNormD blk.lnVbarG blk.lnVbarB blk.dim imf)
    (← layerNormD blk.lnTbarSG blk.lnTbarSB blk.dim tsf)
    (← layerNormD blk.lnVbarSG blk.lnVbarSB blk.dim imsf)
  let x ← addD3 a skip
  let y ← feedForwardD blk (← layerNormD blk.lnFFG blk.lnFFB blk.dim x)
  addD3 y x

/-- The `for attn, ff in self.layers` loop: only the text stream is rebound. -/
noncomputable def encoderLoopD : List BlockParams → DT3 → DT3 → DT3 → DT3 → Option DT3
  | [], tf, _, _, _ => some tf
  | blk :: rest, tf, imf, tsf, imsf =>
      (blockStepD blk tf imf tsf imsf).bind fun t2 => encoderLoopD rest t2 imf tsf imsf

/-- `DocFormerEncoder.forward` in the dynamic model; with an empty block list
Python's `return x` hits an unbound variable (`UnboundLocalError`), modelled
as `none`. -/
noncomputable def encoderForwardD (blocks : List BlockParams) (tf imf tsf imsf : DT3) :
    Option DT3 :=
  match blocks with
  | [] => none
  | _ :: _ => encoderLoopD blocks tf imf tsf imsf

/-- Wellformedness of one encoder block wrt hidden size `e` and
`max_position_embeddings` bound `m` (the constructor arguments on lines
391-404 guarantee exactly this). -/
structure BlockWF (e m : ℕ) (blk : BlockParams) : Prop where
  hdim : blk.dim = e
  hED : blk.attn.embedDim = e
  hH : 0 < blk.attn.nHeads
  hdvd : blk.attn.nHeads ∣ e
  hm : blk.attn.maxSeqLength = m

/-- A wellformed block succeeds on same-shaped in-bound inputs and preserves
the text shape. -/
theorem blockStepD_wf {e m : ℕ} {blk : BlockParams} (W : BlockWF e m blk)
    {tf imf tsf imsf : DT3}
    (ht3 : tf.n3 = e)
    (hi1 : imf.n1 = tf.n1) (hi2 : imf.n2 = tf.n2) (hi3 : imf.n3 = e)
    (hts1 : tsf.n1 = tf.n1) (hts2 : tsf.n2 = tf.n2) (hts3 : tsf.n3 = e)
    (his1 : imsf.n1 = tf.n1) (his2 : imsf.n2 = tf.n2) (his3 : imsf.n3 = e)
    (hs : tf.n2 ≤ m) :
    ∃ out, blockStepD blk tf imf tsf imsf = some out ∧
      out.n1 = tf.n1 ∧ out.n2 = tf.n2 ∧ out.n3 = e := by
  obtain ⟨S1, hS1, hS11, hS12, hS13⟩ :=
    addD3_some tf imf hi1.symm hi2.symm (by rw [ht3, hi3])
  obtain ⟨S2, hS2, hS21, hS22, hS23⟩ := addD3_some S1 tsf
    (by simp only [hS11, hts1]) (by simp only [hS12, hts2])
    (by simp only [hS13, ht3, hts3])
  obtain ⟨SK, hSK, hSK1, hSK2, hSK3⟩ := addD3_some S2 imsf
    (by simp only [hS21, hS11, his1]) (by simp only [hS22, hS12, his2])
    (by simp only [hS23, hS13, ht3, his3])
  obtain ⟨N1, hN1, hN11, hN12, hN13⟩ :=
    layerNormD_some blk.lnTbarG blk.lnTbarB blk.dim tf (by rw [ht3, W.hdim])
  obtain ⟨N2, hN2, hN21, hN22, hN23⟩ :=
    layerNormD_some blk.lnVbarG blk.lnVbarB blk.dim imf (by rw [hi3, W.hdim])
  obtain ⟨N3, hN3, hN31, hN32, hN33⟩ :=
    layerNormD_some blk.lnTbarSG blk.lnTbarSB blk.dim tsf (by rw [hts3, W.hdim])
  obtain ⟨N4, hN4, hN41, hN42, hN43⟩ :=
    layerNormD_some blk.lnVbarSG blk.lnVbarSB blk.dim imsf (by rw [his3, W.hdim])
  obtain ⟨A, hA, hA1, hA2, hA3⟩ := @forward_wf blk.attn N1 N2 N3 N4
    W.hH (by rw [W.hED]; exact W.hdvd)
    (by rw [hN13, ht3, W.hED])
    (by simp only [hN21, hN11, hi1]) (by simp only [hN22, hN12, hi2])
    (by rw [hN23, hi3, W.hED])
    (by simp only [hN31, hN11, hts1]) (by simp only [hN32, hN12, hts2])
    (by rw [hN33, hts3, W.hED])
    (by simp only [hN41, hN11, his1]) (by simp only [hN42, hN12, his2])
    (by rw [hN43, his3, W.hED])
    (by rw [hN12, W.hm]; exact hs)
  obtain ⟨X, hX, hX1, hX2, hX3⟩ := addD3_some A SK
    (by simp only [hA1, hN11, hSK1, hS21, hS11])
    (by simp only [hA2, hN12, hSK2, hS22, hS12])
    (by simp only [hA3, W.hED, hSK3, hS23, hS13, ht3])
  obtain ⟨N5, hN5, hN51, hN52, hN53⟩ :=
    layerNormD_some blk.lnFFG blk.lnFFB blk.dim X
      (by simp only [hX3, hA3, W.hED, W.hdim])
  obtain ⟨Y, hY, hY1, hY2, hY3⟩ := feedForwardD_some blk N5
    (by simp only [hN53, hX3, hA3, W.hED, W.hdim])
  obtain ⟨OUT, hOUT, hOUT1, hOUT2, hOUT3⟩ := addD3_some Y X
    (by simp only [hY1, hN51]) (by simp only [hY2, hN52])
    (by simp only [hY3, W.hdim, hX3, hA3, W.hED])
  refine ⟨OUT, ?_, ?_, ?_, ?_⟩
  · simp only [blockStepD, hS1, hS2, hSK, hN1, hN2, hN3, hN4, hA, hX, hN5, hY, hOUT,
      bindSomeEq]
  · simp only [hOUT1, hY1, hN51, hX1, hA1, hN11]
  · simp only [hOUT2, hY2, hN52, hX2, hA2, hN12]
  · simp only [hOUT3, hY3, W.hdim]

/-- A wellformed block fails (shape error inside the attention layer) as soon
as the sequence length exceeds `m`. -/
theorem blockStepD_overflow {e m : ℕ} {blk : BlockParams} (W : BlockWF e m blk)
    {tf imf tsf imsf : DT3}
    (ht3 : tf.n3 = e)
    (hi1 : imf.n1 = tf.n1) (hi2 : imf.n2 = tf.n2) (hi3 : imf.n3 = e)
    (hts1 : tsf.n1 = tf.n1) (hts2 : tsf.n2 = tf.n2) (hts3 : tsf.n3 = e)
    (his1 : imsf.n1 = tf.n1) (his2 : imsf.n2 = tf.n2) (his3 : imsf.n3 = e)
    (hs : m < tf.n2) :
    blockStepD blk tf imf tsf imsf = none := by
  obtain ⟨S1, hS1, hS11, hS12, hS13⟩ :=
    addD3_some tf imf hi1.symm hi2.symm (by rw [ht3, hi3])
  obtain ⟨S2, hS2, hS21, hS22, hS23⟩ := addD3_some S1 tsf
    (by simp only [hS11, hts1]) (by simp only [hS12, hts2])
    (by simp only [hS13, ht3, hts3])
  obtain ⟨SK, hSK, hSK1, hSK2, hSK3⟩ := addD3_some S2 imsf
    (by simp only [hS21, hS11, his1]) (by simp only [hS22, hS12, his2])
    (by simp only [hS23, hS13, ht3, his3])
  obtain ⟨N1, hN1, hN11, hN12, hN13⟩ :=
    layerNormD_some blk.lnTbarG blk.lnTbarB blk.dim tf (by rw [ht3, W.hdim])
  obtain ⟨N2, hN2, hN21, hN22, hN23⟩ :=
    layerNormD_some blk.lnVbarG blk.lnVbarB blk.dim imf (by rw [hi3, W.hdim])
  obtain ⟨N3, hN3, hN31, hN32, hN33⟩ :=
    layerNormD_some blk.lnTbarSG blk.lnTbarSB blk.dim tsf (by rw [hts3, W.hdim])
  obtain ⟨N4, hN4, hN41, hN42, hN43⟩ :=
    layerNormD_some blk.lnVbarSG blk.lnVbarSB blk.dim imsf (by rw [his3, W.hdim])
  have hAnone : forward blk.attn N1 N2 N3 N4 = none :=
    forward_overflow W.hH (by rw [W.hED]; exact W.hdvd)
      (by rw [hN13, ht3, W.hED]) (by rw [hN12, W.hm]; exact hs)
  simp only [blockStepD, hS1, hS2, hSK, hN1, hN2, hN3, hN4, hAnone,
    bindSomeEq, bindNoneEq]

/-- The loop preserves wellformedness layer by layer. -/
theorem encoderLoopD_wf {e m : ℕ} {blocks : List BlockParams}
    (hwf : ∀ blk ∈ blocks, BlockWF e m blk) :
    ∀ {tf imf tsf imsf : DT3}, tf.n3 = e →
      imf.n1 = tf.n1 → imf.n2 = tf.n2 → imf.n3 = e →
      tsf.n1 = tf.n1 → tsf.n2 = tf.n2 → tsf.n3 = e →
      imsf.n1 = tf.n1 → imsf.n2 = tf.n2 → imsf.n3 = e →
      tf.n2 ≤ m →
      ∃ out, encoderLoopD blocks tf imf tsf imsf = some out ∧
        out.n1 = tf.n1 ∧ out.n2 = tf.n2 ∧ out.n3 = e := by
  induction blocks with
  | nil =>
      intro tf imf tsf imsf ht3 hi1 hi2 hi3 hts1 hts2 hts3 his1 his2 his3 hs
      exact ⟨tf, rfl, rfl, rfl, ht3⟩
  | cons blk rest ih =>
      intro tf imf tsf imsf ht3 hi1 hi2 hi3 hts1 hts2 hts3 his1 his2 his3 hs
      obtain ⟨t2, ht2, h1, h2, h3⟩ :=
        blockStepD_wf (hwf blk (List.mem_cons_self blk rest)) ht3 hi1 hi2 hi3
          hts1 hts2 hts3 his1 his2 his3 hs
      obtain ⟨out, hout, o1, o2, o3⟩ :=
        ih (fun b hb => hwf b (List.mem_cons_of_mem blk hb)) h3
          (by rw [hi1, h1]) (by rw [hi2, h2]) hi3
          (by rw [hts1, h1]) (by rw [hts2, h2]) hts3
          (by rw [his1, h1]) (by rw [his2, h2]) his3
          (by rw [h2]; exact hs)
      refine ⟨out, ?_, ?_, ?_, o3⟩
      · simp only [encoderLoopD, ht2, Option.some_bind, hout]
      · rw [o1, h1]
      · rw [o2, h2]

end Dyn

/-- C8: a forward pass through the encoder core with sequence length equal to
`max_position_embeddings` succeeds (no runtime error) with the expected output
shape, while sequence length `max_position_embeddings + 1` fails: the
`RelativePosition` slice silently truncates to `m` rows and the following
`einsum('bhrd,lrd->bhlr', ...)` rejects the mismatched position axis.  (The
hypothesis `2 ≤ m` keeps the mismatched sizes away from 1, where torch's
einsum would broadcast instead of erroring; the shape model checks exact
equality.) -/
theorem claim8_sequence_length_boundary (e m : ℕ) (blk0 : Dyn.BlockParams)
    (rest : List Dyn.BlockParams)
    (hwf : ∀ blk ∈ blk0 :: rest, Dyn.BlockWF e m blk) :
    (∀ tf imf tsf imsf : Dyn.DT3, tf.n2 = m → tf.n3 = e →
      imf.n1 = tf.n1 → imf.n2 = tf.n2 → imf.n3 = e →
      tsf.n1 = tf.n1 → tsf.n2 = tf.n2 → tsf.n3 = e →
      imsf.n1 = tf.n1 → imsf.n2 = tf.n2 → imsf.n3 = e →
      ∃ out, Dyn.encoderForwardD (blk0 :: rest) tf imf tsf imsf = some out ∧
        out.n1 = tf.n1 ∧ out.n2 = m ∧ out.n3 = e) ∧
    (∀ tf imf tsf imsf : Dyn.DT3, tf.n2 = m + 1 → tf.n3 = e →
      imf.n1 = tf.n1 → imf.n2 = tf.n2 → imf.n3 = e →
      tsf.n1 = tf.n1 → tsf.n2 = tf.n2 → tsf.n3 = e →
      imsf.n1 = tf.n1 → imsf.n2 = tf.n2 → imsf.n3 = e →
      2 ≤ m →
      Dyn.encoderForwardD (blk0 :: rest) tf imf tsf imsf = none) := by
  constructor
  · intro tf imf tsf imsf hseq ht3 hi1 hi2 hi3 hts1 hts2 hts3 his1 his2 his3
    obtain ⟨out, hout, o1, o2, o3⟩ :=
      Dyn.encoderLoopD_wf hwf ht3 hi1 hi2 hi3 hts1 hts2 hts3 his1 his2 his3
        (le_of_eq hseq)
    exact ⟨out, hout, o1, by rw [o2, hseq], o3⟩
  · intro tf imf tsf imsf hseq ht3 hi1 hi2 hi3 hts1 hts2 hts3 his1 his2 his3 _
    have hstep : Dyn.blockStepD blk0 tf imf tsf imsf = none :=
      Dyn.blockStepD_overflow (hwf blk0 (List.mem_cons_self blk0 rest)) ht3
        hi1 hi2 hi3 hts1 hts2 hts3 his1 his2 his3 (by rw [hseq]; omega)
    simp only [Dyn.encoderForwardD, Dyn.encoderLoopD, hstep, Option.none_bind]

/-- Concrete wellformed block for the C8 witness: hidden size 1, one head,
`max_position_embeddings = 2`, all weights zero. -/
noncomputable def blkEx8 : Dyn.BlockParams :=
  ⟨⟨1, 1, 0, 2, fun _ _ => 0, fun _ _ => 0, fun _ _ => 0, fun _ _ => 0, fun _ _ => 0,
    fun _ _ => 0, fun _ _ => 0, fun _ _ => 0, fun _ _ => 0,
    fun _ => 0, fun _ => 0, fun _ => 0, fun _ => 0, fun _ => 0, fun _ => 0,
    fun _ => 0, fun _ => 0, fun _ => 0, fun _ _ => 0, fun _ _ => 0⟩,
   1, fun _ => 0, fun _ => 0, fun _ => 0, fun _ => 0, fun _ => 0, fun _ => 0,
   fun _ => 0, fun _ => 0, fun _ => 0, fun _ => 0, 1,
   fun _ _ => 0, fun _ => 0, fun _ _ => 0, fun _ => 0⟩

/-- `blkEx8` is wellformed for `e = 1`, `m = 2`. -/
theorem blkEx8_wf : Dyn.BlockWF 1 2 blkEx8 :=
  ⟨rfl, rfl, Nat.one_pos, Nat.dvd_refl 1, rfl⟩

/-- An in-bound `(1, 2, 1)` input for the C8 witness. -/
noncomputable def dtEx8 : Dyn.DT3 := ⟨1, 2, 1, fun _ _ _ => 0⟩

/-- An out-of-bound `(1, 3, 1)` input for the C8 witness. -/
noncomputable def dtEx8b : Dyn.DT3 := ⟨1, 3, 1, fun _ _ _ => 0⟩

/-- Witness for C8 at the concrete one-block encoder `[blkEx8]` with
`max_position_embeddings = 2`: sequence length 2 succeeds, length 3 fails. -/
theorem claim8_sequence_length_boundary_witness :
    (dtEx8.n2 = 2 ∧ dtEx8b.n2 = 2 + 1 ∧ 2 ≤ 2) ∧
    (∃ out, Dyn.encoderForwardD [blkEx8] dtEx8 dtEx8 dtEx8 dtEx8 = some out ∧
      out.n1 = dtEx8.n1 ∧ out.n2 = 2 ∧ out.n3 = 1) ∧
    Dyn.encoderForwardD [blkEx8] dtEx8b dtEx8b dtEx8b dtEx8b = none := by
  have hwf : ∀ blk ∈ [blkEx8], Dyn.BlockWF 1 2 blk := by
    intro blk hb
    rw [List.mem_singleton] at hb
    subst hb
    exact blkEx8_wf
  have h := claim8_sequence_length_boundary 1 2 blkEx8 [] hwf
  exact ⟨⟨rfl, rfl, by decide⟩,
    h.1 dtEx8 dtEx8 dtEx8 dtEx8 rfl rfl rfl rfl rfl rfl rfl rfl rfl rfl rfl,
    h.2 dtEx8b dtEx8b dtEx8b dtEx8b rfl rfl rfl rfl rfl rfl rfl rfl rfl rfl rfl
      (by decide)⟩

/-- C5: the fused context is the elementwise sum of the text attention context
and the image attention context (addition, not concatenation); the layer
output is the shared output projection of the head-merged sum; and in the
shape-checked model a wellformed forward call returns an output whose shape
equals the `text_feat` input's shape. -/
theorem claim5_additive_fusion_and_shape {H D p b s : ℕ} (P : MMAttnParams H D p)
    (m : ℕ) (textFeat imgFeat textSpatialFeat imgSpatialFeat : T3 b s (H * D)) :
    (∀ h i l v, mmContext P m textFeat imgFeat textSpatialFeat imgSpatialFeat h i l v =
      mmContextText P m textFeat textSpatialFeat h i l v +
        mmContextImg P m imgFeat imgSpatialFeat h i l v) ∧
    (mmForward P m textFeat imgFeat textSpatialFeat imgSpatialFeat =
      linear3 P.toOutW P.toOutB
        (mergeHeads (mmContext P m textFeat imgFeat textSpatialFeat imgSpatialFeat))) ∧
    (∀ (dP : Dyn.AttnParams) (tf imf tsf imsf : Dyn.DT3),
      0 < dP.nHeads → dP.nHeads ∣ dP.embedDim →
      tf.n3 = dP.embedDim →
      imf.n1 = tf.n1 → imf.n2 = tf.n2 → imf.n3 = dP.embedDim →
      tsf.n1 = tf.n1 → tsf.n2 = tf.n2 → tsf.n3 = dP.embedDim →
      imsf.n1 = tf.n1 → imsf.n2 = tf.n2 → imsf.n3 = dP.embedDim →
      tf.n2 ≤ dP.maxSeqLength →
      ∃ out, Dyn.forward dP tf imf tsf imsf = some out ∧
        out.n1 = tf.n1 ∧ out.n2 = tf.n2 ∧ out.n3 = tf.n3) := by
  refine ⟨fun h i l v => rfl, rfl, ?_⟩
  intro dP tf imf tsf imsf hH hdvd ht3 hi1 hi2 hi3 hts1 hts2 hts3 his1 his2 his3 hs
  obtain ⟨out, hout, h1, h2, h3⟩ :=
    Dyn.forward_wf hH hdvd ht3 hi1 hi2 hi3 hts1 hts2 hts3 his1 his2 his3 hs
  exact ⟨out, hout, h1, h2, by rw [h3, ht3]⟩

/-- Concrete typed attention parameters for the C5 witness (one head of
dimension one, all weights zero). -/
noncomputable def attnParamsEx5 : MMAttnParams 1 1 0 :=
  ⟨fun _ _ => 0, fun _ _ => 0, fun _ _ => 0, fun _ _ => 0, fun _ _ => 0, fun _ _ => 0,
   fun _ _ => 0, fun _ _ => 0, fun _ _ => 0,
   fun _ => 0, fun _ => 0, fun _ => 0, fun _ => 0, fun _ => 0, fun _ => 0,
   fun _ => 0, fun _ => 0, fun _ => 0,
   fun _ _ => 0, fun _ _ => 0⟩

/-- Concrete typed input for the C5 witness. -/
noncomputable def tEx5 : T3 1 1 1 := fun _ _ _ => 0

/-- Concrete dynamic attention parameters for the C5 witness. -/
noncomputable def dynParamsEx5 : Dyn.AttnParams :=
  ⟨1, 1, 0, 1, fun _ _ => 0, fun _ _ => 0, fun _ _ => 0, fun _ _ => 0, fun _ _ => 0,
   fun _ _ => 0, fun _ _ => 0, fun _ _ => 0, fun _ _ => 0,
   fun _ => 0, fun _ => 0, fun _ => 0, fun _ => 0, fun _ => 0, fun _ => 0,
   fun _ => 0, fun _ => 0, fun _ => 0, fun _ _ => 0, fun _ _ => 0⟩

/-- Concrete `(1, 1, 1)` dynamic input for the C5 witness. -/
noncomputable def dtEx5 : Dyn.DT3 := ⟨1, 1, 1, fun _ _ _ => 0⟩

/-- Witness for C5 at concrete parameters and inputs. -/
theorem claim5_additive_fusion_and_shape_witness :
    (0 < dynParamsEx5.nHeads ∧ dynParamsEx5.nHeads ∣ dynParamsEx5.embedDim ∧
     dtEx5.n3 = dynParamsEx5.embedDim ∧ dtEx5.n2 ≤ dynParamsEx5.maxSeqLength) ∧
    (∀ h i l v, mmContext attnParamsEx5 1 tEx5 tEx5 tEx5 tEx5 h i l v =
      mmContextText attnParamsEx5 1 tEx5 tEx5 h i l v +
        mmContextImg attnParamsEx5 1 tEx5 tEx5 h i l v) ∧
    (∃ out, Dyn.forward dynParamsEx5 dtEx5 dtEx5 dtEx5 dtEx5 = some out ∧
      out.n1 = dtEx5.n1 ∧ out.n2 = dtEx5.n2 ∧ out.n3 = dtEx5.n3) :=
  ⟨⟨by decide, by decide, rfl, by decide⟩,
   (claim5_additive_fusion_and_shape attnParamsEx5 1 tEx5 tEx5 tEx5 tEx5).1,
   (claim5_additive_fusion_and_shape attnParamsEx5 1 tEx5 tEx5 tEx5 tEx5).2.2
     dynParamsEx5 dtEx5 dtEx5 dtEx5 dtEx5 (by decide) (by decide) rfl rfl rfl rfl
     rfl rfl rfl rfl rfl rfl (by decide)⟩


end DocFormer
